import Mathlib

/-!
# PlayFab HTTP layer: error classification, request manager, test suite

A shallow embedding of
* `PlayFabRequest::HandleErrorReport` (`PlayFabClientSdk/Code/Source/PlayFabHttp.cpp`,
  lines 49-99) and of the data it reads and writes;
* `PlayFabRequestManager` (the same file, lines 101-216) as a machine whose
  steps are the critical sections and the passes of the worker loop;
* `PlayFabApiTests::TickTestSuite` (`PlayFabServerSDK/Code/Source/PlayFabFlowNode.cpp`,
  lines 95-122, 183-209).

Conventions:
* A call of a library accessor whose precondition does not hold (a rapidjson
  accessor on a value of the wrong kind, a dereference of a null pointer) has no
  defined result: the embedding returns `none` there, and the worker thread
  stops.
* A callback is a function pointer; what its body does is outside this file.
  Of a call of it the embedding keeps whether it returned to its caller or
  left by an exception, and records the call in a trace.
* A text is a `String`, which may hold NUL characters. Where the code hands a
  text on as a `const char*`, the receiver sees the characters before the
  first NUL only (`cString`).
-/

namespace PlayFabClientSdk

/-! ## The JSON document (rapidjson, `AzCore/JSON/document.h`) -/

/-- Modelled from the spec: a JSON number as the JSON collaborator stores it
(spec section 6: members are queried by presence and type). rapidjson, which
is not among the sources, keeps a literal without fraction and exponent as an
integer and every other number as a double. -/
inductive Number where
  /-- A literal without fraction or exponent. -/
  | integer (i : Int)
  /-- Any other number, `m * 10 ^ e`, kept as a double. -/
  | double (m : Int) (e : Int)
deriving DecidableEq, Repr

/-- Modelled from the spec: a value of the parsed document, `rapidjson::Value`
(spec section 6, the JSON collaborator; the library is not among the
sources). The members of an object are kept in the order of the text; the
name of a member is a string in every document the parser builds. A string is
the sequence of `GetStringLength()` characters that `GetString()` points to;
the escape `\u0000` of the text puts a NUL character into it. -/
inductive Value where
  | null
  | bool (b : Bool)
  | number (n : Number)
  | string (s : String)
  | array (elements : List Value)
  | object (members : List (String × Value))

/-- A member of an object: `itr->name`, `itr->value`. -/
abbrev Member := String × Value

/-- The 32-bit `int` of the target: `INT_MIN .. INT_MAX`. -/
def isInt32 (i : Int) : Bool := decide (-2147483648 ≤ i) && decide (i ≤ 2147483647)

/-- The first member of that name among the members of an object, or `none`. -/
def findMember (members : List Member) (name : String) : Option Member :=
  members.find? (fun m => m.1 == name)

namespace Value

/-- The accessor `Value::IsNumber()`. -/
def IsNumber : Value → Bool
  | number _ => true
  | _ => false

/-- The accessor `Value::IsInt()`: an integer that fits the 32-bit `int`. -/
def IsInt : Value → Bool
  | number (Number.integer i) => isInt32 i
  | _ => false

/-- The accessor `Value::IsString()`. -/
def IsString : Value → Bool
  | string _ => true
  | _ => false

/-- The accessor `Value::IsArray()`. -/
def IsArray : Value → Bool
  | array _ => true
  | _ => false

/-- The accessor `Value::IsObject()`. -/
def IsObject : Value → Bool
  | object _ => true
  | _ => false

/-- The accessor `Value::GetInt()`; its precondition is `IsInt()`. -/
def GetInt : Value → Option Int
  | number (Number.integer i) => if isInt32 i then some i else none
  | _ => none

/-- The accessor `Value::GetString()`; its precondition is `IsString()`. -/
def GetString : Value → Option String
  | string s => some s
  | _ => none

/-- The range `Begin() .. End()` of an array; the precondition is `IsArray()`. -/
def Elements : Value → Option (List Value)
  | array elements => some elements
  | _ => none

/-- The range `MemberBegin() .. MemberEnd()` of an object; the precondition of
both accessors is `IsObject()`. -/
def Members : Value → Option (List Member)
  | object members => some members
  | _ => none

/-- The accessor `Value::FindMember(name)`: the first member of that name, or
`MemberEnd()` (here `none` inside `some`); its precondition is `IsObject()`. -/
def FindMember (v : Value) (name : String) : Option (Option Member) :=
  v.Members.map (fun members => findMember members name)

end Value

/-- The parse error code of a document, `rapidjson::ParseErrorCode`. -/
abbrev ParseErrorCode := Nat

/-- The code `kParseErrorNone`: the text parsed. -/
def kParseErrorNone : ParseErrorCode := 0

/-- Modelled from the spec: a parsed document, `rapidjson::Document` (spec
section 6: parse bytes into a document, report parse success or failure). The
parser itself is not among the sources. -/
structure Document where
  /-- What `GetParseError()` returns. -/
  GetParseError : ParseErrorCode
  /-- The root value. -/
  root : Value

/-! ## The error record (`PlayFabError.h`) -/

/-- Modelled from the spec: the container behind `PlayFabError::ErrorDetails`,
declared in `PlayFabError.h`, which is not among the sources. The spec's data
model (section 3) calls it a multi-valued mapping from field name to messages
in which a field may have several messages; line 78 fills it through
`insert(std::pair<AZStd::string, AZStd::string>(..))` and the test iterates it
entry by entry (`it->second`). The list holds the entries in iteration
order. -/
abbrev ErrorDetailsMap := List (String × String)

/-- Modelled from the spec: `insert` of the container of
`PlayFabError::ErrorDetails` (`PlayFabError.h` is not among the sources). By
the spec the mapping keeps every inserted pair, also under a field name it
already holds, and keeps the pairs in their order of insertion ("one entry per
array element, preserving (field, message) order of appearance", section 4.1;
"insertion order among messages for the same field is preserved", section 3):
the new entry is the last of the iteration. -/
def ErrorDetailsMap.insert (entry : String × String) (details : ErrorDetailsMap) :
    ErrorDetailsMap :=
  details ++ [entry]

/-- Modelled from the spec: the two enumerators of `PlayFabErrorCode` that
`HandleErrorReport` names. Their numeric values are declared in
`PlayFabError.h`, which is not among the sources, so they are taken as given. -/
structure PlayFabErrorCodes where
  PlayFabErrorConnectionTimeout : Int
  PlayFabErrorServiceUnavailable : Int
deriving DecidableEq, Repr

/-- Modelled from the spec: the error record `PlayFabError` of `PlayFabError.h`
(not among the sources; spec section 3): application error code, HTTP code,
HTTP status phrase, error name, message, and the field to messages mapping. -/
structure PlayFabError where
  HttpCode : Int
  HttpStatus : String
  ErrorCode : Int
  ErrorName : String
  ErrorMessage : String
  ErrorDetails : ErrorDetailsMap
deriving DecidableEq, Repr

/-- The `void* customData` of a request: an address, never dereferenced here. -/
abbrev CustomData := Nat

/-- How a call of a callback ends. -/
inductive CallbackExit where
  | returned
  | threw
deriving DecidableEq, Repr

/-- Modelled from the spec: the type `ErrorCallback` of `PlayFabError.h` (not
among the sources), a function pointer taking the error record and the custom
data. -/
abbrev ErrorCallback := PlayFabError → CustomData → CallbackExit

/-! ## Settings (`PlayFabSettings.cpp`) -/

/-- The settings object `PlayFabSettings::playFabSettings` designates; the
members are those the constructor of `PlayFabSettings.cpp` initialises. -/
structure PlayFabSettings where
  playFabSDKVersion : String
  playFabVersionString : String
  useDevelopmentEnvironment : Bool
  developmentEnvironmentURL : String
  productionEnvironmentURL : String
  titleId : String
  globalErrorHandler : Option ErrorCallback
  developerSecretKey : String
  serverURL : String

/-- The constructor `PlayFabSettings::PlayFabSettings()`. -/
def PlayFabSettings.new : PlayFabSettings where
  playFabSDKVersion := "0.0.170710"
  playFabVersionString := "LumberyardSDK-0.0.170710"
  useDevelopmentEnvironment := false
  developmentEnvironmentURL := ".playfabsandbox.com"
  productionEnvironmentURL := ".playfabapi.com"
  titleId := ""
  globalErrorHandler := none
  developerSecretKey := ""
  serverURL := ""

/-! ## The request (`PlayFabHttp.h`) -/

/-- The enumeration `Aws::Http::HttpMethod`. -/
inductive HttpMethod where
  | HTTP_GET
  | HTTP_POST
  | HTTP_DELETE
  | HTTP_PUT
  | HTTP_HEAD
  | HTTP_PATCH
deriving DecidableEq, Repr

/-- What the transport hands back for a request: `Aws::Http::HttpResponse`. -/
structure HttpResponse where
  GetResponseCode : Nat
  GetResponseBody : String
deriving DecidableEq, Repr

/-- The completion callback `HttpCallback` of a request, a `std::function`
built by the API wrapper that made the request; here the identity of that
function object. -/
abbrev HttpCallback := Nat

/-- The class `PlayFabRequest`. A pointer member is an `Option`, `none` being
`nullptr`. -/
structure PlayFabRequest where
  mURI : String
  mMethod : HttpMethod
  mAuthKey : String
  mAuthValue : String
  mRequestJsonBody : String
  mCustomData : CustomData
  httpResponse : Option HttpResponse
  mResponseText : Option String
  mResponseSize : Int
  mResponseJson : Option Document
  mError : Option PlayFabError
  mHttpCode : Nat
  mInternalCallback : HttpCallback
  mResultCallback : Nat
  mErrorCallback : Option ErrorCallback

/-- The initializing constructor of `PlayFabRequest` (lines 21-37); 400 is
`Aws::Http::HttpResponseCode::BAD_REQUEST`. -/
def PlayFabRequest.new (URI : String) (method : HttpMethod) (authKey authValue : String)
    (requestJsonBody : String) (customData : CustomData) (mResultCallback : Nat)
    (mErrorCallback : Option ErrorCallback) (internalCallback : HttpCallback) : PlayFabRequest where
  mURI := URI
  mMethod := method
  mAuthKey := authKey
  mAuthValue := authValue
  mRequestJsonBody := requestJsonBody
  mCustomData := customData
  httpResponse := none
  mResponseText := none
  mResponseSize := 0
  mResponseJson := none
  mError := none
  mHttpCode := 400
  mInternalCallback := internalCallback
  mResultCallback := mResultCallback
  mErrorCallback := mErrorCallback

/-! ## `PlayFabRequest::HandleErrorReport` -/

/-- The text a `const char*` designates: the characters before the first NUL.
It is what the constructor and the assignment of `AZStd::string` copy from a
`const char*` (lines 63-67, 78, 91) and what `Document::Parse` reads (line
211). -/
def cString (text : String) : String :=
  ⟨text.data.takeWhile (fun c => c != Char.ofNat 0)⟩

/-- Lines 77-78: every element of one array of `errorDetails` is read with
`GetString()` and inserted under the name of the member. The pair is built
from two `const char*`, `itr->name.GetString()` and
`erroListIter->GetString()`. -/
def insertErrorList (name : String) : List Value → ErrorDetailsMap → Option ErrorDetailsMap
  | [], details => some details
  | v :: rest, details => do
    let message ← v.GetString
    insertErrorList name rest (ErrorDetailsMap.insert (cString name, cString message) details)

/-- Lines 72-80: the loop over the members of the `errorDetails` object. The
test `itr->name.IsString()` of line 74 holds for every member (the name of a
member is a string), which leaves `itr->value.IsArray()`. -/
def insertErrorDetails : List Member → ErrorDetailsMap → Option ErrorDetailsMap
  | [], details => some details
  | itr :: rest, details =>
    if itr.2.IsArray then do
      let errorList ← itr.2.Elements
      let details ← insertErrorList itr.1 errorList details
      insertErrorDetails rest details
    else insertErrorDetails rest details

/-- Lines 69-81: the entries of `ErrorDetails`, which is empty in a new
record: `if (errorDetailsJson != end && errorDetailsJson->value.IsObject())`
guards the loop over the members. -/
def readErrorDetails (errorDetailsJson : Option Member) : Option ErrorDetailsMap :=
  match errorDetailsJson with
  | some m =>
    if m.2.IsObject then do
      let errorDetailsObj ← m.2.Members
      insertErrorDetails errorDetailsObj []
    else some []
  | none => some []

/-- The expression of lines 59 and 61:
`(it != end && it->value.IsNumber()) ? it->value.GetInt() : fallback`. -/
def intOr (it : Option Member) (fallback : Int) : Option Int :=
  match it with
  | some m => if m.2.IsNumber then m.2.GetInt else some fallback
  | none => some fallback

/-- The expression of lines 63, 65 and 67:
`(it != end && it->value.IsString()) ? it->value.GetString() : fallback`,
assigned to an `AZStd::string`. Both operands are `const char*`, the fallback
a literal in lines 63 and 65 and `mResponseText` in line 67: the string
assigned holds the characters before the first NUL. -/
def stringOr (it : Option Member) (fallback : Option String) : Option String :=
  (match it with
    | some m => if m.2.IsString then m.2.GetString else fallback
    | none => fallback).map cString

/-- Lines 57-81: the record read from a document that parsed. `MemberEnd()`
and `FindMember()` ask for an object. -/
def errorFromJson (codes : PlayFabErrorCodes) (mResponseJson : Value)
    (mResponseText : Option String) : Option PlayFabError := do
  let _ ← mResponseJson.Members
  let errorCodeJson ← mResponseJson.FindMember "errorCode"
  let ErrorCode ← intOr errorCodeJson codes.PlayFabErrorServiceUnavailable
  let codeJson ← mResponseJson.FindMember "code"
  let HttpCode ← intOr codeJson 503
  let statusJson ← mResponseJson.FindMember "status"
  let HttpStatus ← stringOr statusJson (some "ServiceUnavailable")
  let errorNameJson ← mResponseJson.FindMember "error"
  let ErrorName ← stringOr errorNameJson (some "ServiceUnavailable")
  let errorMessageJson ← mResponseJson.FindMember "errorMessage"
  let ErrorMessage ← stringOr errorMessageJson mResponseText
  let errorDetailsJson ← mResponseJson.FindMember "errorDetails"
  let ErrorDetails ← readErrorDetails errorDetailsJson
  pure
    { HttpCode := HttpCode
      HttpStatus := HttpStatus
      ErrorCode := ErrorCode
      ErrorName := ErrorName
      ErrorMessage := ErrorMessage
      ErrorDetails := ErrorDetails }

/-- Lines 86-91: the record for no response or a response that is not JSON.
Line 91 is `ErrorMessage = HttpStatus = (size == 0 ? literal : mResponseText)`:
it assigns the `const char*` to `HttpStatus` first, which takes the characters
before the first NUL, and then copies `HttpStatus` to `ErrorMessage`. -/
def errorFromNoJson (codes : PlayFabErrorCodes) (mResponseSize : Int)
    (mResponseText : Option String) : Option PlayFabError := do
  let mError : PlayFabError :=
    { HttpCode := if mResponseSize = 0 then 408 else 503
      HttpStatus := if mResponseSize = 0 then "RequestTimeout" else "ServiceUnavailable"
      ErrorCode :=
        if mResponseSize = 0 then codes.PlayFabErrorConnectionTimeout
        else codes.PlayFabErrorServiceUnavailable
      ErrorName := if mResponseSize = 0 then "ConnectionTimeout" else "ServiceUnavailable"
      ErrorMessage := ""
      ErrorDetails := [] }
  let text ← if mResponseSize = 0 then some "Request Timeout or null response" else mResponseText
  let mError := { mError with HttpStatus := cString text }
  pure { mError with ErrorMessage := mError.HttpStatus }

/-- Which of the two error callbacks a call went to. -/
inductive Handler where
  | globalErrorHandler
  | mErrorCallback
deriving DecidableEq, Repr

/-- One call of an error callback with its two arguments. -/
structure Invocation where
  handler : Handler
  error : PlayFabError
  customData : CustomData
deriving DecidableEq, Repr

/-- What a call of `HandleErrorReport` leaves behind: the record `mError` points
to, the calls of error callbacks in order, and whether the function returned or
an exception of a callback left it. -/
structure Outcome where
  mError : PlayFabError
  calls : List Invocation
  exit : CallbackExit
deriving DecidableEq, Repr

/-- Lines 94-98: the global error handler, then the error callback of the
request. The source has no `try`: an exception of the first call leaves the
function before the second. -/
def sendErrorCallbacks (settings : PlayFabSettings) (req : PlayFabRequest)
    (mError : PlayFabError) : Outcome :=
  let first : List Invocation × CallbackExit :=
    match settings.globalErrorHandler with
    | some globalErrorHandler =>
      ([⟨Handler.globalErrorHandler, mError, req.mCustomData⟩],
        globalErrorHandler mError req.mCustomData)
    | none => ([], CallbackExit.returned)
  match first.2 with
  | CallbackExit.threw => ⟨mError, first.1, CallbackExit.threw⟩
  | CallbackExit.returned =>
    match req.mErrorCallback with
    | some mErrorCallback =>
      ⟨mError, first.1 ++ [⟨Handler.mErrorCallback, mError, req.mCustomData⟩],
        mErrorCallback mError req.mCustomData⟩
    | none => ⟨mError, first.1, CallbackExit.returned⟩

/-- Lines 51-92: the record `mError` is set to. The test of lines 53-54 reads
`mResponseJson` only when `mResponseSize != 0`. -/
def buildError (codes : PlayFabErrorCodes) (req : PlayFabRequest) : Option PlayFabError :=
  if req.mResponseSize ≠ 0 then do
    let mResponseJson ← req.mResponseJson
    if mResponseJson.GetParseError = kParseErrorNone then
      errorFromJson codes mResponseJson.root req.mResponseText
    else errorFromNoJson codes req.mResponseSize req.mResponseText
  else errorFromNoJson codes req.mResponseSize req.mResponseText

/-- The function `PlayFabRequest::HandleErrorReport` (lines 49-99). `none`: a
precondition of an accessor or of a dereference did not hold. -/
def HandleErrorReport (codes : PlayFabErrorCodes) (settings : PlayFabSettings)
    (req : PlayFabRequest) : Option Outcome :=
  (buildError codes req).map (sendErrorCallbacks settings req)

/-! ## Notions the statements use -/

/-- The value a numeric field takes by the rule "the member if present and a
number, else the default". -/
def numericMemberOr (found : Option Member) (default : Int) : Int :=
  match found with
  | some (_, Value.number (Number.integer i)) => i
  | _ => default

/-- The value a text field takes by the rule "the member if present and a
string, else the default". -/
def stringMemberOr (found : Option Member) (default : String) : String :=
  match found with
  | some (_, Value.string s) => s
  | _ => default

/-- The member of that name, if there is one and it is a number, is an integer
of 32 bits: the precondition of the `GetInt()` of lines 59 and 61. -/
def intReadable (members : List Member) (name : String) : Bool :=
  match findMember members name with
  | some (_, Value.number n) => (Value.number n).IsInt
  | _ => true

/-- A value that is an array holds only strings. -/
def stringArray (v : Value) : Bool :=
  match v with
  | Value.array elements => elements.all Value.IsString
  | _ => true

/-- Every element of every array-valued member is a string: the precondition
of the `GetString()` of line 78. -/
def stringArrays (details : List Member) : Bool :=
  details.all fun m => stringArray m.2

/-- The `errorDetails` member, if there is one and it is an object, holds only
strings in its arrays. -/
def detailsReadable (members : List Member) : Bool :=
  match findMember members "errorDetails" with
  | some (_, Value.object details) => stringArrays details
  | _ => true

/-- The members of a root object on which every accessor `HandleErrorReport`
calls meets its precondition: `errorCode` and `code`, where numbers, are 32-bit
integers, and `errorDetails`, where an object, has only strings in its
arrays. -/
def ReadableErrorBody (members : List Member) : Bool :=
  intReadable members "errorCode" && intReadable members "code" && detailsReadable members

/-- The (field, message) pairs of an `errorDetails` object in their order of
appearance: member after member, and for a member whose value is an array its
strings in array order; a member whose value is no array has none. -/
def detailPairs : List Member → List (String × String)
  | [] => []
  | m :: rest =>
    (match m.2 with
      | Value.array elements => (elements.filterMap Value.GetString).map (fun s => (m.1, s))
      | _ => []) ++ detailPairs rest

/-- The sum of the lengths of the arrays among the members. -/
def arrayLengths : List Member → Nat
  | [] => 0
  | m :: rest =>
    (match m.2 with
      | Value.array elements => elements.length
      | _ => 0) + arrayLengths rest

/-- The messages stored under one field name, in iteration order (the
`equal_range` of the container). -/
def messagesOf (name : String) (details : List (String × String)) : List String :=
  (details.filter (fun e => e.1 == name)).map (fun e => e.2)

/-- The entry stored for a (field, message) pair of the body: both strings
up to their first NUL. -/
def storedPair (pair : String × String) : String × String :=
  (cString pair.1, cString pair.2)

/-- The global error handler, if one is registered, returns from its call with
this record and custom data (it does not leave by an exception). -/
def globalHandlerReturns (settings : PlayFabSettings) (mError : PlayFabError)
    (customData : CustomData) : Bool :=
  match settings.globalErrorHandler with
  | some globalErrorHandler => globalErrorHandler mError customData == CallbackExit.returned
  | none => true

/-- The text holds no NUL character. -/
def nulFree (text : String) : Bool := text.data.all (fun c => c != Char.ofNat 0)

/-- The body carries the five members C3 speaks of: an integer `errorCode`, an
integer `code`, and string `status`, `error` and `errorMessage` members. -/
def carriesFiveMembers (members : List Member) : Bool :=
  (match findMember members "errorCode" with
    | some (_, Value.number (Number.integer _)) => true
    | _ => false) &&
  (match findMember members "code" with
    | some (_, Value.number (Number.integer _)) => true
    | _ => false) &&
  ((findMember members "status").any fun m => m.2.IsString) &&
  ((findMember members "error").any fun m => m.2.IsString) &&
  ((findMember members "errorMessage").any fun m => m.2.IsString)

/-! ## Examples of inputs -/

/-- The document of the spec's example body
`{"errorCode":1074,"code":400,"status":"BadRequest","error":"InvalidParams",`
`"errorMessage":"bad input","errorDetails":{"Email":["Email address is not valid."]}}`. -/
def exampleRoot : Value :=
  Value.object
    [("errorCode", Value.number (Number.integer 1074)),
     ("code", Value.number (Number.integer 400)),
     ("status", Value.string "BadRequest"),
     ("error", Value.string "InvalidParams"),
     ("errorMessage", Value.string "bad input"),
     ("errorDetails",
       Value.object [("Email", Value.array [Value.string "Email address is not valid."])])]

/-- The text of the spec's example body (159 bytes). -/
def exampleText : String :=
  "\x7b\"errorCode\":1074,\"code\":400,\"status\":\"BadRequest\",\"error\":\"InvalidParams\",\"errorMessage\":\"bad input\",\"errorDetails\":\x7b\"Email\":[\"Email address is not valid.\"]\x7d\x7d"

/-- Numeric values for the two enumerators, for the examples. -/
def exampleCodes : PlayFabErrorCodes := ⟨2, 1123⟩

/-- A request as the constructor leaves it, with the response members set. -/
def exampleRequest (size : Int) (text : Option String) (json : Option Document)
    (callback : Option ErrorCallback) : PlayFabRequest :=
  { PlayFabRequest.new "/Client/LoginWithEmailAddress" HttpMethod.HTTP_POST "" "" "" 7 0
      callback 0 with
    mResponseSize := size
    mResponseText := text
    mResponseJson := json }

/-- A response body that is not JSON, as a gateway in front of the service
sends it (28 bytes). -/
def exampleHtml : String := "<html>502 Bad Gateway</html>"

/-- The document the parser leaves for a text that is not JSON: a parse error
code other than `kParseErrorNone` (3 is `kParseErrorValueInvalid`). -/
def exampleNoJson : Document := ⟨3, Value.null⟩

/-- A request whose response was empty although the transport reported the
status 200 and a document object exists. -/
def exampleEmptyRequest : PlayFabRequest :=
  { exampleRequest 0 (some "") (some ⟨1, Value.null⟩) none with mHttpCode := 200 }

/-- The entries for the pairs of the `errorDetails` object of a body, in their
order of appearance; none without such an object. -/
def detailsOf (members : List Member) : ErrorDetailsMap :=
  match findMember members "errorDetails" with
  | some (_, Value.object details) => (detailPairs details).map storedPair
  | _ => []

/-- The request that received the spec's example body. -/
def exampleErrorRequest (callback : Option ErrorCallback) : PlayFabRequest :=
  exampleRequest 159 (some exampleText) (some ⟨kParseErrorNone, exampleRoot⟩) callback

/-- The members of the body `{"code":1.5}`. -/
def fractionalCode : List Member := [("code", Value.number (Number.double 15 (-1)))]

/-- The members of the body `{"errorCode":4000000000}`. -/
def largeErrorCode : List Member := [("errorCode", Value.number (Number.integer 4000000000))]

/-- The members of the body `{"code":404,"status":7}`: the status has the
wrong type, the error code, the name and the message are missing. -/
def sparseBody : List Member :=
  [("code", Value.number (Number.integer 404)), ("status", Value.number (Number.integer 7))]

/-- The members of the `errorDetails` object
`{"Password":["Password must be between 6 and 100 characters."],`
`"Email":["Email address is not valid."]}`: the fields do not come in the order
of their names. -/
def passwordFirst : List Member :=
  [("Password", Value.array [Value.string "Password must be between 6 and 100 characters."]),
   ("Email", Value.array [Value.string "Email address is not valid."])]

/-- The request that received the body `{"errorDetails":` `passwordFirst` `}`
(120 bytes). -/
def passwordFirstRequest : PlayFabRequest :=
  exampleRequest 120
    (some "\x7b\"errorDetails\":\x7b\"Password\":[\"Password must be between 6 and 100 characters.\"],\"Email\":[\"Email address is not valid.\"]\x7d\x7d")
    (some ⟨kParseErrorNone, Value.object [("errorDetails", Value.object passwordFirst)]⟩) none

/-- The members of the `errorDetails` object
`{"Email":["Email address is not valid."],"Password":["Password must be`
`between 6 and 100 characters.","Password is too common."],"Note":"x"}`: a field
with two messages and a member that is no array. -/
def twoMessages : List Member :=
  [("Email", Value.array [Value.string "Email address is not valid."]),
   ("Password", Value.array [Value.string "Password must be between 6 and 100 characters.",
      Value.string "Password is too common."]),
   ("Note", Value.string "x")]

/-- The request that received the body `{"errorDetails":` `twoMessages` `}`
(157 bytes). -/
def twoMessagesRequest : PlayFabRequest :=
  exampleRequest 157
    (some "\x7b\"errorDetails\":\x7b\"Email\":[\"Email address is not valid.\"],\"Password\":[\"Password must be between 6 and 100 characters.\",\"Password is too common.\"],\"Note\":\"x\"\x7d\x7d")
    (some ⟨kParseErrorNone, Value.object [("errorDetails", Value.object twoMessages)]⟩) none

/-- An error callback that returns to its caller. -/
def returning : ErrorCallback := fun _ _ => CallbackExit.returned

/-- An error callback that leaves by an exception. -/
def throwing : ErrorCallback := fun _ _ => CallbackExit.threw

/-- The settings after `globalErrorHandler` was assigned. -/
def settingsWith (handler : Option ErrorCallback) : PlayFabSettings :=
  { PlayFabSettings.new with globalErrorHandler := handler }

/-- The record built for the empty response. -/
def timeoutError : PlayFabError :=
  { HttpCode := 408
    HttpStatus := "Request Timeout or null response"
    ErrorCode := 2
    ErrorName := "ConnectionTimeout"
    ErrorMessage := "Request Timeout or null response"
    ErrorDetails := [] }

/-- A response body of 5 bytes that is not JSON and holds a NUL: `ab`, NUL,
`cd`. -/
def nulText : String := "ab\x00cd"

/-- The request that received `nulText`; lines 205-209 read all 5 bytes into
the buffer. -/
def nulTextRequest : PlayFabRequest := exampleRequest 5 (some nulText) (some exampleNoJson) none

/-- The members of the spec's example body with `"errorDetails":{"Email":[1]}`
in place of its `errorDetails`. -/
def numberDetailBody : List Member :=
  [("errorCode", Value.number (Number.integer 1074)),
   ("code", Value.number (Number.integer 400)),
   ("status", Value.string "BadRequest"),
   ("error", Value.string "InvalidParams"),
   ("errorMessage", Value.string "bad input"),
   ("errorDetails", Value.object [("Email", Value.array [Value.number (Number.integer 1)])])]

/-- The request that received the body of `numberDetailBody` (131 bytes). -/
def numberDetailRequest : PlayFabRequest :=
  exampleRequest 131
    (some "\x7b\"errorCode\":1074,\"code\":400,\"status\":\"BadRequest\",\"error\":\"InvalidParams\",\"errorMessage\":\"bad input\",\"errorDetails\":\x7b\"Email\":[1]\x7d\x7d")
    (some ⟨kParseErrorNone, Value.object numberDetailBody⟩) none

/-- The members of the body
`{"errorCode":1074,"code":400,"status":"BadRequest",`
`"error":"Invalid\u0000Params","errorMessage":"bad input"}`: the escape puts a
NUL into the error name. -/
def nulNameBody : List Member :=
  [("errorCode", Value.number (Number.integer 1074)),
   ("code", Value.number (Number.integer 400)),
   ("status", Value.string "BadRequest"),
   ("error", Value.string "Invalid\x00Params"),
   ("errorMessage", Value.string "bad input")]

/-- The request that received the body of `nulNameBody` (108 bytes). -/
def nulNameRequest : PlayFabRequest :=
  exampleRequest 108
    (some "\x7b\"errorCode\":1074,\"code\":400,\"status\":\"BadRequest\",\"error\":\"Invalid\\u0000Params\",\"errorMessage\":\"bad input\"\x7d")
    (some ⟨kParseErrorNone, Value.object nulNameBody⟩) none

/-- The members of the `errorDetails` object
`{"Email":["Email address is not valid.",7]}`: an array with a number. -/
def mixedArray : List Member :=
  [("Email", Value.array [Value.string "Email address is not valid.",
      Value.number (Number.integer 7)])]

/-- The request that received the body `{"errorDetails":` `mixedArray` `}`
(60 bytes). -/
def mixedArrayRequest : PlayFabRequest :=
  exampleRequest 60
    (some "\x7b\"errorDetails\":\x7b\"Email\":[\"Email address is not valid.\",7]\x7d\x7d")
    (some ⟨kParseErrorNone, Value.object [("errorDetails", Value.object mixedArray)]⟩) none

/-- The members of the `errorDetails` object
`{"Email":["Email\u0000 address is not valid."]}`: a message with a NUL. -/
def nulMessage : List Member :=
  [("Email", Value.array [Value.string "Email\x00 address is not valid."])]

/-- The request that received the body `{"errorDetails":` `nulMessage` `}`
(64 bytes). -/
def nulMessageRequest : PlayFabRequest :=
  exampleRequest 64
    (some "\x7b\"errorDetails\":\x7b\"Email\":[\"Email\\u0000 address is not valid.\"]\x7d\x7d")
    (some ⟨kParseErrorNone, Value.object [("errorDetails", Value.object nulMessage)]⟩) none

/-- The members of the `errorDetails` object `{"Password":["a"],"Email":["b"]}`. -/
def twoFields : List Member :=
  [("Password", Value.array [Value.string "a"]), ("Email", Value.array [Value.string "b"])]

/-- The request that received the body
`{"errorCode":4000000000,"errorDetails":` `twoFields` `}` (72 bytes). -/
def largeCodeDetailsRequest : PlayFabRequest :=
  exampleRequest 72
    (some "\x7b\"errorCode\":4000000000,\"errorDetails\":\x7b\"Password\":[\"a\"],\"Email\":[\"b\"]\x7d\x7d")
    (some ⟨kParseErrorNone,
      Value.object [("errorCode", Value.number (Number.integer 4000000000)),
        ("errorDetails", Value.object twoFields)]⟩) none

/-- The members of the `errorDetails` object
`{"Pass\u0000word":["a"],"Email":["b"]}`: a field name with a NUL. -/
def nulField : List Member :=
  [("Pass\x00word", Value.array [Value.string "a"]), ("Email", Value.array [Value.string "b"])]

/-- The request that received the body `{"errorDetails":` `nulField` `}`
(55 bytes). -/
def nulFieldRequest : PlayFabRequest :=
  exampleRequest 55
    (some "\x7b\"errorDetails\":\x7b\"Pass\\u0000word\":[\"a\"],\"Email\":[\"b\"]\x7d\x7d")
    (some ⟨kParseErrorNone, Value.object [("errorDetails", Value.object nulField)]⟩) none

/-- The members of the `errorDetails` object `{"A":["x","y"]}`. -/
def twoInOneField : List Member :=
  [("A", Value.array [Value.string "x", Value.string "y"])]

/-- The request that received the body `{"code":1.5,"errorDetails":`
`twoInOneField` `}` (43 bytes). -/
def fractionalCodeDetailsRequest : PlayFabRequest :=
  exampleRequest 43
    (some "\x7b\"code\":1.5,\"errorDetails\":\x7b\"A\":[\"x\",\"y\"]\x7d\x7d")
    (some ⟨kParseErrorNone,
      Value.object [("code", Value.number (Number.double 15 (-1))),
        ("errorDetails", Value.object twoInOneField)]⟩) none

/-- The members of the `errorDetails` object `{"A":["x\u0000y","z"]}`: the
first of two messages holds a NUL. -/
def nulMessages : List Member :=
  [("A", Value.array [Value.string "x\x00y", Value.string "z"])]

/-- The request that received the body `{"errorDetails":` `nulMessages` `}`
(39 bytes). -/
def nulMessagesRequest : PlayFabRequest :=
  exampleRequest 39
    (some "\x7b\"errorDetails\":\x7b\"A\":[\"x\\u0000y\",\"z\"]\x7d\x7d")
    (some ⟨kParseErrorNone, Value.object [("errorDetails", Value.object nulMessages)]⟩) none

/-- The request that received the 17 bytes `{"code":404}`, NUL, `tail`:
`Parse` reads the object before the NUL. -/
def nulTailRequest : PlayFabRequest :=
  exampleRequest 17 (some "\x7b\"code\":404\x7d\x00tail")
    (some ⟨kParseErrorNone, Value.object [("code", Value.number (Number.integer 404))]⟩) none

/-! ## The request manager (`PlayFabRequestManager`, lines 101-216)

The caller threads and the worker thread touch `m_requestsToHandle` and
`m_pendingCalls` only while they hold `m_requestMutex`, and `m_runThread` is
atomic. A run of the manager is therefore a sequence of actions, each taken as
a whole: a call of `AddRequest`, the clearing of the run flag by the
destructor, or one step of the worker thread between two places of its loop.
-/

/-- A `PlayFabRequest*`: `none` is `nullptr`, `some a` the request at the
address `a`. -/
abbrev RequestPtr := Option Nat

/-- What a run of the manager does, in the order in which it does it. -/
inductive Event where
  /-- Line 132: the request was pushed on `m_requestsToHandle`. -/
  | AddRequest (request : RequestPtr)
  /-- Line 113: the destructor cleared `m_runThread`. -/
  | Destroy
  /-- Line 153: the call `HandleRequest(request)`. -/
  | HandleRequest (request : RequestPtr)
  /-- Line 162: the call `HandleResponse(request)`. -/
  | HandleResponse (request : RequestPtr)
  /-- Line 215: the call `requestContainer->mInternalCallback(requestContainer)`. -/
  | mInternalCallback (request : RequestPtr)
deriving DecidableEq, Repr

/-- The request an HTTP client is given: `Aws::Http::HttpRequest` as lines
174-188 fill it. -/
structure HttpRequest where
  uri : String
  method : HttpMethod
  contentType : String
  headers : List (String × String)
  body : String
  contentLength : String
deriving DecidableEq, Repr

/-- Modelled from the spec: the two collaborators of spec section 6, which are
not among the sources. The transport, `HttpClient::MakeRequest`, hands back a
response object or a null pointer; the JSON parser, `Document::Parse`, turns a
NUL-terminated text into a document. -/
structure Collaborators where
  MakeRequest : HttpRequest → Option HttpResponse
  Parse : String → Document

/-- The request objects by address. -/
abbrev Heap := Nat → PlayFabRequest

/-- The HTTP request of lines 174-188: content type, the SDK header, the
authentication header when `mAuthKey` is not empty, body and content length. -/
def buildHttpRequest (settings : PlayFabSettings) (req : PlayFabRequest) : HttpRequest where
  uri := req.mURI
  method := req.mMethod
  contentType := "application/json"
  headers :=
    [("X-PlayFabSDK", settings.playFabVersionString)] ++
      (if req.mAuthKey.length > 0 then [(req.mAuthKey, req.mAuthValue)] else [])
  body := req.mRequestJsonBody
  contentLength := toString req.mRequestJsonBody.utf8ByteSize

/-- The function `PlayFabRequestManager::HandleRequest` (lines 170-190): the
response of the transport is stored in the request. The pointer is
dereferenced without a test: for `nullptr` there is no result. -/
def HandleRequest (env : Collaborators) (settings : PlayFabSettings)
    (requestContainer : RequestPtr) (heap : Heap) : Option Heap :=
  match requestContainer with
  | none => none
  | some a =>
    some (Function.update heap a
      { heap a with httpResponse := env.MakeRequest (buildHttpRequest settings (heap a)) })

/-- The function `PlayFabRequestManager::HandleResponse` (lines 192-216): the
new heap and the calls of completion callbacks it made. Line 194 returns for
a null pointer and for a request without a response object; otherwise the
response members are filled (the size is the length of the body in bytes;
`Parse` is given the buffer as a `const char*`) and line 215 calls
`mInternalCallback`. -/
def HandleResponse (env : Collaborators) (requestContainer : RequestPtr) (heap : Heap) :
    Heap × List Event :=
  match requestContainer with
  | none => (heap, [])
  | some a =>
    match (heap a).httpResponse with
    | none => (heap, [])
    | some httpResponse =>
      (Function.update heap a
        { heap a with
          mHttpCode := httpResponse.GetResponseCode
          mResponseSize := Int.ofNat httpResponse.GetResponseBody.utf8ByteSize
          mResponseText := some httpResponse.GetResponseBody
          mResponseJson := some (env.Parse (cString httpResponse.GetResponseBody)) },
        [Event.mInternalCallback requestContainer])

/-- Where the worker thread stands in `ThreadFunction` (lines 136-168). -/
inductive WorkerPc where
  /-- Line 141: about to test `m_runThread`. -/
  | loopHead
  /-- Lines 143-147: about to take the mutex, swap the queues and count. -/
  | swap
  /-- Line 150: about to test `!requestsToHandle.empty()`. -/
  | send
  /-- Line 159: about to test `!resultsToHandle.empty()`. -/
  | respond
  /-- Line 168: the loop was left. -/
  | exited
  /-- A null pointer was dereferenced in `HandleRequest`. -/
  | crashed
deriving DecidableEq, Repr

/-- The object `PlayFabRequestManager` with the locals of its worker thread,
the request objects and the events so far. A queue is a list, front first. -/
structure PlayFabRequestManager where
  m_pendingCalls : Int
  m_requestsToHandle : List RequestPtr
  m_runThread : Bool
  pc : WorkerPc
  requestsToHandle : List RequestPtr
  resultsToHandle : List RequestPtr
  heap : Heap
  trace : List Event

/-- The constructor (lines 104-109): the run flag is set and the thread
started. `m_pendingCalls` is not initialised: its value is whatever the memory
holds, here the argument. -/
def PlayFabRequestManager.new (m_pendingCalls : Int) (heap : Heap) : PlayFabRequestManager where
  m_pendingCalls := m_pendingCalls
  m_requestsToHandle := []
  m_runThread := true
  pc := WorkerPc.loopHead
  requestsToHandle := []
  resultsToHandle := []
  heap := heap
  trace := []

/-- The function `PlayFabRequestManager::GetPendingCalls` (lines 118-126). -/
def GetPendingCalls (m : PlayFabRequestManager) : Int := m.m_pendingCalls

/-- The function `PlayFabRequestManager::AddRequest` (lines 128-134). -/
def AddRequest (requestContainer : RequestPtr) (m : PlayFabRequestManager) :
    PlayFabRequestManager :=
  { m with
    m_requestsToHandle := m.m_requestsToHandle ++ [requestContainer]
    trace := m.trace ++ [Event.AddRequest requestContainer] }

/-- The destructor up to its `join` (line 113): the run flag is cleared. -/
def Destroy (m : PlayFabRequestManager) : PlayFabRequestManager :=
  { m with m_runThread := false, trace := m.trace ++ [Event.Destroy] }

/-- One step of `ThreadFunction` (lines 136-168), from one place of the loop
to the next. The counter of line 146 is the sum of two queue lengths, which
stay far inside the range of `int`. -/
def ThreadFunction (env : Collaborators) (settings : PlayFabSettings)
    (m : PlayFabRequestManager) : PlayFabRequestManager :=
  match m.pc with
  | WorkerPc.loopHead =>
    if m.m_runThread then { m with pc := WorkerPc.swap } else { m with pc := WorkerPc.exited }
  | WorkerPc.swap =>
    { m with
      requestsToHandle := m.m_requestsToHandle
      m_requestsToHandle := m.requestsToHandle
      m_pendingCalls :=
        Int.ofNat m.m_requestsToHandle.length + Int.ofNat m.resultsToHandle.length
      pc := WorkerPc.send }
  | WorkerPc.send =>
    match m.requestsToHandle with
    | [] => { m with pc := WorkerPc.respond }
    | request :: rest =>
      match HandleRequest env settings request m.heap with
      | none => { m with pc := WorkerPc.crashed }
      | some heap =>
        { m with
          heap := heap
          trace := m.trace ++ [Event.HandleRequest request]
          resultsToHandle := m.resultsToHandle ++ [request]
          requestsToHandle := rest }
  | WorkerPc.respond =>
    match m.resultsToHandle with
    | [] => { m with pc := WorkerPc.loopHead }
    | request :: rest =>
      { m with
        heap := (HandleResponse env request m.heap).1
        trace := m.trace ++ [Event.HandleResponse request] ++ (HandleResponse env request m.heap).2
        resultsToHandle := rest
        pc := WorkerPc.loopHead }
  | WorkerPc.exited => m
  | WorkerPc.crashed => m

/-- What the threads can do to the manager. -/
inductive Action where
  /-- Some thread calls `AddRequest`. -/
  | AddRequest (request : RequestPtr)
  /-- The destructor clears the run flag. -/
  | Destroy
  /-- The worker thread takes its next step. -/
  | worker
deriving DecidableEq, Repr

/-- The manager after one action. -/
def step (env : Collaborators) (settings : PlayFabSettings) (m : PlayFabRequestManager) :
    Action → PlayFabRequestManager
  | Action.AddRequest request => AddRequest request m
  | Action.Destroy => Destroy m
  | Action.worker => ThreadFunction env settings m

/-- The manager after an interleaving, the actions taken first to last. -/
def run (env : Collaborators) (settings : PlayFabSettings) (m : PlayFabRequestManager)
    (actions : List Action) : PlayFabRequestManager :=
  actions.foldl (step env settings) m

/-- The requests submitted, in the order of the calls of `AddRequest`. -/
def submitted (trace : List Event) : List RequestPtr :=
  trace.filterMap fun e =>
    match e with
    | Event.AddRequest request => some request
    | _ => none

/-- The requests sent, in the order of the calls of `HandleRequest`. -/
def sent (trace : List Event) : List RequestPtr :=
  trace.filterMap fun e =>
    match e with
    | Event.HandleRequest request => some request
    | _ => none

/-- The requests whose response was processed, in the order of the calls of
`HandleResponse`. -/
def processed (trace : List Event) : List RequestPtr :=
  trace.filterMap fun e =>
    match e with
    | Event.HandleResponse request => some request
    | _ => none

/-- The requests whose completion callback was called, in order. -/
def delivered (trace : List Event) : List RequestPtr :=
  trace.filterMap fun e =>
    match e with
    | Event.mInternalCallback request => some request
    | _ => none

/-- The number of worker steps among the actions. -/
def workerSteps (actions : List Action) : Nat :=
  actions.count Action.worker

/-- A transport that answers every request with the status 200 and the body
`{}`, and the document of that body. -/
def answeringEnv : Collaborators where
  MakeRequest := fun _ => some ⟨200, "\x7b\x7d"⟩
  Parse := fun _ => ⟨kParseErrorNone, Value.object []⟩

/-- A transport that hands back no response object. -/
def silentEnv : Collaborators where
  MakeRequest := fun _ => none
  Parse := fun _ => ⟨kParseErrorNone, Value.object []⟩

/-- A heap that holds a request as the constructor leaves it at every
address. -/
def exampleHeap : Heap := fun _ => exampleRequest 0 none none none

/-- What the manager guarantees at every place of a run: the requests not yet
sent are, in submission order, those of the local and then of the shared
queue; the requests sent and not yet processed are those of the results
queue; outside the send loop the local queue is empty; no callback was called
for a request that was not processed. -/
def QueuesInOrder (m : PlayFabRequestManager) : Prop :=
  submitted m.trace = sent m.trace ++ m.requestsToHandle ++ m.m_requestsToHandle ∧
  sent m.trace = processed m.trace ++ m.resultsToHandle ∧
  (m.pc ≠ WorkerPc.send → m.pc ≠ WorkerPc.crashed → m.requestsToHandle = []) ∧
  (delivered m.trace).Sublist (processed m.trace)

/-- The manager after two requests were submitted and the worker went
through the head of its loop, the swap and the send loop: it stands before
line 159 with both requests in the results queue. -/
def twoSentManager : PlayFabRequestManager :=
  run answeringEnv PlayFabSettings.new (PlayFabRequestManager.new 0 exampleHeap)
    [Action.AddRequest (some 1), Action.AddRequest (some 2), Action.worker, Action.worker,
     Action.worker, Action.worker, Action.worker]

/-- The manager after two requests were submitted and the worker passed the
head of its loop: it stands before the swap of lines 143-147. -/
def beforeSwapManager : PlayFabRequestManager :=
  run answeringEnv PlayFabSettings.new (PlayFabRequestManager.new 0 exampleHeap)
    [Action.AddRequest (some 1), Action.worker, Action.AddRequest (some 2)]

/-- How many responses the worker may still process in the turn of the loop
it is in: one when it is past the test of the run flag, none at the head of
the loop and outside the loop. -/
def turnLeft : WorkerPc → Nat
  | WorkerPc.swap => 1
  | WorkerPc.send => 1
  | WorkerPc.respond => 1
  | _ => 0

/-- An interleaving in which the run flag is cleared while the worker is past
line 141, and a request is submitted after that. -/
def lateSubmission : List Action :=
  [Action.worker, Action.Destroy, Action.AddRequest (some 1), Action.worker, Action.worker,
   Action.worker, Action.worker]

/-- An interleaving in which one request is submitted and the worker takes a
whole turn of its loop: head, swap, send, end of the send loop, response. -/
def oneRequestTurn : List Action :=
  [Action.AddRequest (some 1), Action.worker, Action.worker, Action.worker, Action.worker,
   Action.worker]

/-- An interleaving in which the worker swaps while the queues are empty and
two requests are submitted right after. -/
def submitAfterSwap : List Action :=
  [Action.worker, Action.worker, Action.AddRequest (some 1), Action.AddRequest (some 2)]

/-- An interleaving in which the worker takes a whole idle turn of its loop
and a request is submitted after it. -/
def submitAfterIdleTurn : List Action :=
  [Action.worker, Action.worker, Action.worker, Action.worker, Action.AddRequest (some 1)]

/-- The members of the body `{"errorDetails":{"Email":[1]}}`. -/
def numberInDetails : List Member :=
  [("errorDetails", Value.object [("Email", Value.array [Value.number (Number.integer 1)])])]

/-! ## The test suite (`PlayFabFlowNode.cpp`, class `PlayFabApiTests`) -/

/-- The enumeration `PlayFabApiTestActiveState`. -/
inductive PlayFabApiTestActiveState where
  | PENDING
  | ACTIVE
  | READY
  | COMPLETE
  | ABORTED
deriving DecidableEq, Repr

/-- The enumeration `PlayFabApiTestFinishState`. -/
inductive PlayFabApiTestFinishState where
  | PASSED
  | FAILED
  | SKIPPED
  | TIMEDOUT
deriving DecidableEq, Repr

/-- The members of `PfTestContext` that change while a test runs. -/
structure PfTestFields where
  activeState : PlayFabApiTestActiveState
  finishState : PlayFabApiTestFinishState
  testResultMsg : String
  startTime : Int
  endTime : Int
deriving DecidableEq, Repr

/-- The structure `PfTestContext` (lines 27-73). The member `testFunc` is a
pointer to a function taking the context by reference: here what a call of
it leaves in the members that change. Every test function of the file either
leaves its context alone or ends it with `EndTest`, and touches no other
context. -/
structure PfTestContext extends PfTestFields where
  testName : String
  testFunc : PfTestFields → PfTestFields

/-- The constructor of `PfTestContext` (lines 29-38). -/
def PfTestContext.new (name : String) (func : PfTestFields → PfTestFields) : PfTestContext where
  testName := name
  activeState := PlayFabApiTestActiveState.PENDING
  finishState := PlayFabApiTestFinishState.TIMEDOUT
  testResultMsg := ""
  testFunc := func
  startTime := 0
  endTime := 0

/-- The map `testContexts`, a `std::map<Aws::String, PfTestContext*>`: its
entries in iteration order, each with the context its pointer designates. -/
abbrev TestContexts := List (String × PfTestContext)

/-- The function `StartTest` (lines 184-190); `now` is what `clock()` returns. -/
def StartTest (now : Int) (testContext : PfTestContext) : PfTestContext :=
  let testContext := { testContext with activeState := PlayFabApiTestActiveState.ACTIVE }
  let testContext := { testContext with startTime := now }
  { testContext with toPfTestFields := testContext.testFunc testContext.toPfTestFields }

/-- The function `TickTest` (lines 192-201); `now` is what `clock()` returns. -/
def TickTest (now : Int) (testContext : PfTestContext) : PfTestContext :=
  if testContext.activeState ≠ PlayFabApiTestActiveState.READY ∧
      now - testContext.startTime < 3000 then testContext
  else
    let testContext := { testContext with endTime := now }
    { testContext with activeState := PlayFabApiTestActiveState.COMPLETE }

/-- The function `EndTest` (lines 204-209). -/
def EndTest (testContext : PfTestContext) (finishState : PlayFabApiTestFinishState)
    (resultMsg : String) : PfTestContext :=
  let testContext := { testContext with testResultMsg := resultMsg }
  let testContext := { testContext with finishState := finishState }
  { testContext with activeState := PlayFabApiTestActiveState.READY }

/-- The loop of lines 102-113 over the entries from the position `i` on: the
count of unfinished tests and `nextTest`, a pointer to a context, here the
position of its entry (`none` is `nullptr`). -/
def scanTests : TestContexts → Nat → Int × Option Nat → Int × Option Nat
  | [], _, found => found
  | it :: rest, i, (unfinishedTests, nextTest) =>
    let eachState := it.2.activeState
    let unfinishedTests :=
      if eachState ≠ PlayFabApiTestActiveState.COMPLETE ∧
          eachState ≠ PlayFabApiTestActiveState.ABORTED then unfinishedTests + 1
      else unfinishedTests
    let nextTest :=
      if eachState = PlayFabApiTestActiveState.ACTIVE ∨
          eachState = PlayFabApiTestActiveState.READY then some i
      else if eachState = PlayFabApiTestActiveState.PENDING ∧ nextTest = none then some i
      else nextTest
    scanTests rest (i + 1) (unfinishedTests, nextTest)

/-- The function `TickTestSuite` (lines 95-122): the value returned and the
contexts afterwards. `now` is what `clock()` returns in `StartTest` or
`TickTest`. -/
def TickTestSuite (playFabHttp : PlayFabRequestManager) (now : Int)
    (testContexts : TestContexts) : Bool × TestContexts :=
  if GetPendingCalls playFabHttp > 0 then (false, testContexts)
  else
    let found := scanTests testContexts 0 (0, none)
    let after :=
      match found.2 with
      | some i =>
        match testContexts[i]? with
        | some entry =>
          if entry.2.activeState = PlayFabApiTestActiveState.PENDING then
            testContexts.set i (entry.1, StartTest now entry.2)
          else testContexts.set i (entry.1, TickTest now entry.2)
        | none => testContexts
      | none => testContexts
    (decide (found.1 = 0), after)

/-- The context is `ACTIVE` or `READY`. -/
def isRunning (testContext : PfTestContext) : Bool :=
  decide (testContext.activeState = PlayFabApiTestActiveState.ACTIVE) ||
    decide (testContext.activeState = PlayFabApiTestActiveState.READY)

/-- The number of contexts that are `ACTIVE` or `READY`. -/
def runningTests (testContexts : TestContexts) : Nat :=
  testContexts.countP fun entry => isRunning entry.2

/-- A test function that submits a request and leaves its context alone, as
`InvalidLogin` does. -/
def asyncTest : PfTestFields → PfTestFields := fun fields => fields

/-- A test function that ends its test at once, as `UserDataApi` does when no
user is logged in. -/
def skippedTest : PfTestFields → PfTestFields := fun fields =>
  { fields with
    testResultMsg := "Earlier tests failed to log in"
    finishState := PlayFabApiTestFinishState.SKIPPED
    activeState := PlayFabApiTestActiveState.READY }

/-- Three of the contexts `InitializeTestSuite` creates, in the order of their
names. -/
def exampleTests : TestContexts :=
  [("InvalidLogin", PfTestContext.new "InvalidLogin" asyncTest),
   ("InvalidRegistration", PfTestContext.new "InvalidRegistration" asyncTest),
   ("UserDataApi", PfTestContext.new "UserDataApi" skippedTest)]

/-- A manager whose counter of pending calls is 0. -/
def idleManager : PlayFabRequestManager := PlayFabRequestManager.new 0 exampleHeap

/-! ## Texts and the NUL character -/

theorem cString_of_nulFree (text : String) (h : nulFree text = true) : cString text = text := by
  cases text with
  | mk l =>
    simp only [nulFree, List.all_eq_true] at h
    simp only [cString]
    congr 1
    exact List.takeWhile_eq_self_iff.mpr h

theorem storedPair_of_nulFree (pair : String × String) (h1 : nulFree pair.1 = true)
    (h2 : nulFree pair.2 = true) : storedPair pair = pair := by
  obtain ⟨a, b⟩ := pair
  simp only [storedPair, cString_of_nulFree a h1, cString_of_nulFree b h2]

theorem map_storedPair_of_nulFree (pairs : List (String × String))
    (h : ∀ e ∈ pairs, nulFree e.1 = true ∧ nulFree e.2 = true) :
    pairs.map storedPair = pairs := by
  induction pairs with
  | nil => rfl
  | cons e rest ih =>
    rw [List.map_cons, storedPair_of_nulFree e (h e (List.mem_cons_self _ _)).1
      (h e (List.mem_cons_self _ _)).2, ih (fun x hx => h x (List.mem_cons_of_mem _ hx))]

/-! ## The loops over `errorDetails` -/

theorem strings_length (elements : List Value) (h : elements.all Value.IsString = true) :
    (elements.filterMap Value.GetString).length = elements.length := by
  induction elements with
  | nil => rfl
  | cons v rest ih =>
    rw [List.all_cons, Bool.and_eq_true] at h
    obtain ⟨hv, hrest⟩ := h
    cases v <;> simp [Value.IsString] at hv
    simp [Value.GetString, ih hrest]

theorem insertErrorList_strings (name : String) (elements : List Value) (d : ErrorDetailsMap)
    (h : elements.all Value.IsString = true) :
    insertErrorList name elements d =
      some (d ++
        ((elements.filterMap Value.GetString).map (fun s => (name, s))).map storedPair) := by
  induction elements generalizing d with
  | nil => simp [insertErrorList]
  | cons v rest ih =>
    rw [List.all_cons, Bool.and_eq_true] at h
    obtain ⟨hv, hrest⟩ := h
    cases v <;> simp [Value.IsString] at hv
    simp [insertErrorList, Value.GetString, ih _ hrest, ErrorDetailsMap.insert, storedPair]

theorem insertErrorDetails_strings (details : List Member) (d : ErrorDetailsMap)
    (h : stringArrays details = true) :
    insertErrorDetails details d = some (d ++ (detailPairs details).map storedPair) := by
  induction details generalizing d with
  | nil => simp [insertErrorDetails, detailPairs]
  | cons m rest ih =>
    obtain ⟨name, v⟩ := m
    have h2 : stringArray v = true ∧ stringArrays rest = true := by
      unfold stringArrays at h
      rw [List.all_cons, Bool.and_eq_true] at h
      exact h
    cases v with
    | array elements =>
      have h3 : elements.all Value.IsString = true := h2.1
      simp only [insertErrorDetails, Value.IsArray, Value.Elements, detailPairs, if_true,
        Option.bind_eq_bind, Option.some_bind, insertErrorList_strings name elements d h3,
        ih _ h2.2, List.map_append, List.append_assoc]
    | _ => simp [insertErrorDetails, Value.IsArray, detailPairs, ih _ h2.2]

theorem detailPairs_length (details : List Member) (h : stringArrays details = true) :
    (detailPairs details).length = arrayLengths details := by
  induction details with
  | nil => rfl
  | cons m rest ih =>
    obtain ⟨name, v⟩ := m
    have h2 : stringArray v = true ∧ stringArrays rest = true := by
      unfold stringArrays at h
      rw [List.all_cons, Bool.and_eq_true] at h
      exact h
    cases v with
    | array elements =>
      have h3 : elements.all Value.IsString = true := h2.1
      simp [detailPairs, arrayLengths, ih h2.2, strings_length elements h3]
    | _ => simp [detailPairs, arrayLengths, ih h2.2]

/-! ## The fields read from a JSON object -/

theorem intOr_readable (members : List Member) (name : String) (fallback : Int)
    (h : intReadable members name = true) :
    intOr (findMember members name) fallback =
      some (numericMemberOr (findMember members name) fallback) := by
  unfold intReadable at h
  cases hf : findMember members name with
  | none => rfl
  | some m =>
    obtain ⟨n, v⟩ := m
    rw [hf] at h
    cases v with
    | number x =>
      cases x with
      | integer i =>
        have hi : isInt32 i = true := by simpa [Value.IsInt] using h
        simp [intOr, Value.IsNumber, Value.GetInt, numericMemberOr, hi]
      | double a b => simp [Value.IsInt] at h
    | _ => simp [intOr, Value.IsNumber, numericMemberOr]

theorem stringOr_some (found : Option Member) (fallback : String) :
    stringOr found (some fallback) = some (cString (stringMemberOr found fallback)) := by
  cases found with
  | none => rfl
  | some m =>
    obtain ⟨n, v⟩ := m
    cases v <;> simp [stringOr, Value.IsString, Value.GetString, stringMemberOr]

theorem readErrorDetails_readable (members : List Member)
    (h : detailsReadable members = true) :
    readErrorDetails (findMember members "errorDetails") = some (detailsOf members) := by
  unfold detailsReadable at h
  unfold detailsOf readErrorDetails
  cases hf : findMember members "errorDetails" with
  | none => rfl
  | some m =>
    obtain ⟨n, v⟩ := m
    rw [hf] at h
    cases v with
    | object details =>
      simp [Value.IsObject, Value.Members, insertErrorDetails_strings details [] h]
    | _ => simp [Value.IsObject]

theorem errorFromJson_object (codes : PlayFabErrorCodes) (members : List Member)
    (text : String) (h : ReadableErrorBody members = true) :
    errorFromJson codes (Value.object members) (some text) = some
      { HttpCode := numericMemberOr (findMember members "code") 503
        HttpStatus := cString (stringMemberOr (findMember members "status") "ServiceUnavailable")
        ErrorCode :=
          numericMemberOr (findMember members "errorCode") codes.PlayFabErrorServiceUnavailable
        ErrorName := cString (stringMemberOr (findMember members "error") "ServiceUnavailable")
        ErrorMessage := cString (stringMemberOr (findMember members "errorMessage") text)
        ErrorDetails := detailsOf members } := by
  simp only [ReadableErrorBody, Bool.and_eq_true] at h
  obtain ⟨⟨h1, h2⟩, h3⟩ := h
  simp only [errorFromJson, Value.FindMember, Value.Members, Option.map_some', Option.bind_eq_bind,
    Option.some_bind, intOr_readable members "errorCode" _ h1, intOr_readable members "code" _ h2,
    stringOr_some, readErrorDetails_readable members h3, Option.pure_def]

/-! ## When the accessors can be read -/

theorem insertErrorList_some (name : String) (elements : List Value) (d d' : ErrorDetailsMap)
    (h : insertErrorList name elements d = some d') : elements.all Value.IsString = true := by
  induction elements generalizing d with
  | nil => rfl
  | cons v rest ih =>
    cases v with
    | string s =>
      simp only [insertErrorList, Value.GetString, Option.bind_eq_bind, Option.some_bind] at h
      simp [Value.IsString, ih _ h]
    | _ => simp [insertErrorList, Value.GetString] at h

theorem insertErrorDetails_some (details : List Member) (d d' : ErrorDetailsMap)
    (h : insertErrorDetails details d = some d') : stringArrays details = true := by
  induction details generalizing d with
  | nil => rfl
  | cons m rest ih =>
    obtain ⟨name, v⟩ := m
    unfold stringArrays
    rw [List.all_cons, Bool.and_eq_true]
    cases v with
    | array elements =>
      simp only [insertErrorDetails, Value.IsArray, Value.Elements, if_true, Option.bind_eq_bind,
        Option.some_bind, Option.bind_eq_some] at h
      obtain ⟨d1, h1, h2⟩ := h
      exact ⟨insertErrorList_some name elements d d1 h1, ih _ h2⟩
    | _ =>
      simp only [insertErrorDetails, Value.IsArray] at h
      exact ⟨rfl, ih _ h⟩

theorem intOr_some (members : List Member) (name : String) (fallback i : Int)
    (h : intOr (findMember members name) fallback = some i) :
    intReadable members name = true := by
  unfold intReadable
  cases hf : findMember members name with
  | none => rfl
  | some m =>
    obtain ⟨n, v⟩ := m
    rw [hf] at h
    cases v with
    | number x =>
      cases x with
      | integer j =>
        cases hj : isInt32 j with
        | true => simp [Value.IsInt, hj]
        | false => simp [intOr, Value.IsNumber, Value.GetInt, hj] at h
      | double a b => simp [intOr, Value.IsNumber, Value.GetInt] at h
    | _ => rfl

theorem readErrorDetails_some (members : List Member) (d : ErrorDetailsMap)
    (h : readErrorDetails (findMember members "errorDetails") = some d) :
    detailsReadable members = true := by
  unfold detailsReadable
  cases hf : findMember members "errorDetails" with
  | none => rfl
  | some m =>
    obtain ⟨n, v⟩ := m
    rw [hf] at h
    cases v with
    | object details =>
      simp only [readErrorDetails, Value.IsObject, Value.Members, if_true, Option.bind_eq_bind,
        Option.some_bind] at h
      exact insertErrorDetails_some details [] d h
    | _ => rfl

theorem errorFromJson_not_object (codes : PlayFabErrorCodes) (root : Value)
    (text : Option String) (h : root.Members = none) : errorFromJson codes root text = none := by
  unfold errorFromJson
  rw [h]
  rfl

theorem errorFromJson_some (codes : PlayFabErrorCodes) (root : Value) (text : Option String)
    (e : PlayFabError) (h : errorFromJson codes root text = some e) :
    ∃ members, root = Value.object members ∧ ReadableErrorBody members = true := by
  cases hm : root.Members with
  | none =>
    rw [errorFromJson_not_object codes root text hm] at h
    exact absurd h (by simp)
  | some members =>
    have hroot : root = Value.object members := by
      cases root <;> simp [Value.Members] at hm
      rw [hm]
    subst hroot
    refine ⟨members, rfl, ?_⟩
    simp only [errorFromJson, Value.FindMember, Value.Members, Option.map_some',
      Option.bind_eq_bind, Option.some_bind, Option.bind_eq_some] at h
    obtain ⟨i, hi, j, hj, _, _, _, _, _, _, d, hd, _⟩ := h
    simp only [ReadableErrorBody, Bool.and_eq_true]
    exact ⟨⟨intOr_some members _ _ i hi, intOr_some members _ _ j hj⟩,
      readErrorDetails_some members d hd⟩

/-- For a non-empty response whose text parsed, a record is built exactly when
the root is an object that `ReadableErrorBody` accepts. -/
theorem buildError_json_isSome_iff (codes : PlayFabErrorCodes) (req : PlayFabRequest)
    (root : Value) (text : String) (hsize : req.mResponseSize ≠ 0)
    (htext : req.mResponseText = some text)
    (hjson : req.mResponseJson = some ⟨kParseErrorNone, root⟩) :
    (buildError codes req).isSome = true ↔
      ∃ members, root = Value.object members ∧ ReadableErrorBody members = true := by
  constructor
  · intro h
    obtain ⟨e, he⟩ := Option.isSome_iff_exists.mp h
    simp only [buildError, hsize, hjson, htext, ne_eq, not_false_eq_true, if_true,
      Option.bind_eq_bind, Option.some_bind] at he
    exact errorFromJson_some codes root (some text) e he
  · rintro ⟨members, rfl, hwf⟩
    simp [buildError, hsize, hjson, htext, errorFromJson_object codes members text hwf]

/-! ## The record `HandleErrorReport` builds -/

theorem sendErrorCallbacks_mError (settings : PlayFabSettings) (req : PlayFabRequest)
    (e : PlayFabError) : (sendErrorCallbacks settings req e).mError = e := by
  unfold sendErrorCallbacks
  cases settings.globalErrorHandler with
  | none => cases req.mErrorCallback <;> rfl
  | some g =>
    cases hg : g e req.mCustomData with
    | threw => simp [hg]
    | returned => cases req.mErrorCallback <;> simp [hg]

theorem HandleErrorReport_of_buildError (codes : PlayFabErrorCodes) (settings : PlayFabSettings)
    (req : PlayFabRequest) (e : PlayFabError) (h : buildError codes req = some e) :
    ∃ o, HandleErrorReport codes settings req = some o ∧ o.mError = e :=
  ⟨sendErrorCallbacks settings req e, by simp [HandleErrorReport, h],
    sendErrorCallbacks_mError settings req e⟩

theorem buildError_of_HandleErrorReport (codes : PlayFabErrorCodes) (settings : PlayFabSettings)
    (req : PlayFabRequest) (o : Outcome) (h : HandleErrorReport codes settings req = some o) :
    buildError codes req = some o.mError ∧ o = sendErrorCallbacks settings req o.mError := by
  unfold HandleErrorReport at h
  cases hb : buildError codes req with
  | none => simp [hb] at h
  | some e =>
    simp only [hb, Option.map_some', Option.some.injEq] at h
    subst h
    rw [sendErrorCallbacks_mError]
    exact ⟨rfl, rfl⟩

theorem buildError_empty (codes : PlayFabErrorCodes) (req : PlayFabRequest)
    (h : req.mResponseSize = 0) :
    buildError codes req = some
      { HttpCode := 408
        HttpStatus := "Request Timeout or null response"
        ErrorCode := codes.PlayFabErrorConnectionTimeout
        ErrorName := "ConnectionTimeout"
        ErrorMessage := "Request Timeout or null response"
        ErrorDetails := [] } := by
  have hlit : cString "Request Timeout or null response" = "Request Timeout or null response" := by
    decide
  simp [buildError, errorFromNoJson, h, hlit]

theorem buildError_noJson (codes : PlayFabErrorCodes) (req : PlayFabRequest) (doc : Document)
    (text : String) (hsize : req.mResponseSize ≠ 0) (hjson : req.mResponseJson = some doc)
    (hparse : doc.GetParseError ≠ kParseErrorNone) (htext : req.mResponseText = some text) :
    buildError codes req = some
      { HttpCode := 503
        HttpStatus := cString text
        ErrorCode := codes.PlayFabErrorServiceUnavailable
        ErrorName := "ServiceUnavailable"
        ErrorMessage := cString text
        ErrorDetails := [] } := by
  simp [buildError, errorFromNoJson, hsize, hjson, hparse, htext]

theorem buildError_object (codes : PlayFabErrorCodes) (req : PlayFabRequest)
    (members : List Member) (text : String) (hsize : req.mResponseSize ≠ 0)
    (htext : req.mResponseText = some text)
    (hjson : req.mResponseJson = some ⟨kParseErrorNone, Value.object members⟩)
    (hwf : ReadableErrorBody members = true) :
    buildError codes req = some
      { HttpCode := numericMemberOr (findMember members "code") 503
        HttpStatus := cString (stringMemberOr (findMember members "status") "ServiceUnavailable")
        ErrorCode :=
          numericMemberOr (findMember members "errorCode") codes.PlayFabErrorServiceUnavailable
        ErrorName := cString (stringMemberOr (findMember members "error") "ServiceUnavailable")
        ErrorMessage := cString (stringMemberOr (findMember members "errorMessage") text)
        ErrorDetails := detailsOf members } := by
  simp [buildError, hsize, hjson, htext, errorFromJson_object codes members text hwf]

/-! ## C1: the empty response -/

/-- C1. For every request whose recorded response size is 0, whatever its HTTP
status code, its response text and its JSON document (a null pointer
included), `HandleErrorReport` produces a record with
`ErrorCode = PlayFabErrorConnectionTimeout`, `HttpCode = 408`,
`ErrorName = "ConnectionTimeout"` and
`ErrorMessage = "Request Timeout or null response"`. -/
theorem HandleErrorReport_empty_response (codes : PlayFabErrorCodes)
    (settings : PlayFabSettings) (req : PlayFabRequest) (h : req.mResponseSize = 0) :
    ∃ o, HandleErrorReport codes settings req = some o ∧
      o.mError.ErrorCode = codes.PlayFabErrorConnectionTimeout ∧
      o.mError.HttpCode = 408 ∧
      o.mError.ErrorName = "ConnectionTimeout" ∧
      o.mError.ErrorMessage = "Request Timeout or null response" := by
  obtain ⟨o, ho, he⟩ :=
    HandleErrorReport_of_buildError codes settings req _ (buildError_empty codes req h)
  exact ⟨o, ho, by simp [he]⟩

/-- C1 at a request of size 0 whose HTTP status is 200 and whose document
object exists. -/
theorem HandleErrorReport_empty_response_witness :
    exampleEmptyRequest.mResponseSize = 0 ∧ exampleEmptyRequest.mHttpCode = 200 ∧
    ∃ o, HandleErrorReport exampleCodes PlayFabSettings.new exampleEmptyRequest = some o ∧
      o.mError.ErrorCode = exampleCodes.PlayFabErrorConnectionTimeout ∧
      o.mError.HttpCode = 408 ∧
      o.mError.ErrorName = "ConnectionTimeout" ∧
      o.mError.ErrorMessage = "Request Timeout or null response" :=
  ⟨rfl, rfl, HandleErrorReport_empty_response exampleCodes PlayFabSettings.new
    exampleEmptyRequest rfl⟩

/-! ## C2: the response that is not JSON -/

/-- C2 as stated fails. The response body `ab`, NUL, `cd` is non-empty (5
bytes) and is not JSON; the record has `ErrorMessage = "ab"`, not the body
text: line 91 assigns the `char*` buffer to an `AZStd::string`, which takes
the characters before the first NUL. -/
theorem HandleErrorReport_not_json_counterexample :
    nulTextRequest.mResponseSize = 5 ∧
    nulTextRequest.mResponseText = some nulText ∧
    nulText.length = 5 ∧
    (nulTextRequest.mResponseJson.map fun doc => decide (doc.GetParseError = kParseErrorNone)) =
      some false ∧
    (HandleErrorReport exampleCodes PlayFabSettings.new nulTextRequest).map
        (fun o => o.mError.ErrorMessage) = some "ab" ∧
    nulText ≠ "ab" := by
  decide

/-- C2, amended. For every request whose response is non-empty
(`mResponseSize != 0`, text `text`) and did not parse as JSON
(`GetParseError() != kParseErrorNone`), `HandleErrorReport` produces a record
with `ErrorCode = PlayFabErrorServiceUnavailable`, `HttpCode = 503`,
`ErrorName = "ServiceUnavailable"` and `ErrorMessage` the response text up to
its first NUL character, which is the whole response text when it holds no
NUL. -/
theorem HandleErrorReport_not_json (codes : PlayFabErrorCodes) (settings : PlayFabSettings)
    (req : PlayFabRequest) (doc : Document) (text : String)
    (hsize : req.mResponseSize ≠ 0) (htext : req.mResponseText = some text)
    (hjson : req.mResponseJson = some doc) (hparse : doc.GetParseError ≠ kParseErrorNone) :
    ∃ o, HandleErrorReport codes settings req = some o ∧
      o.mError.ErrorCode = codes.PlayFabErrorServiceUnavailable ∧
      o.mError.HttpCode = 503 ∧
      o.mError.ErrorName = "ServiceUnavailable" ∧
      o.mError.ErrorMessage = cString text ∧
      (nulFree text = true → o.mError.ErrorMessage = text) := by
  obtain ⟨o, ho, he⟩ := HandleErrorReport_of_buildError codes settings req _
    (buildError_noJson codes req doc text hsize hjson hparse htext)
  refine ⟨o, ho, by simp [he], by simp [he], by simp [he], by simp [he], ?_⟩
  intro hnul
  rw [he]
  exact cString_of_nulFree text hnul

/-- C2, amended, at a request that received an HTML page, and at the request
that received `ab`, NUL, `cd`. -/
theorem HandleErrorReport_not_json_witness :
    ((exampleRequest 28 (some exampleHtml) (some exampleNoJson) none).mResponseSize ≠ 0 ∧
      exampleNoJson.GetParseError ≠ kParseErrorNone ∧
      cString exampleHtml = exampleHtml ∧
      ∃ o, HandleErrorReport exampleCodes PlayFabSettings.new
          (exampleRequest 28 (some exampleHtml) (some exampleNoJson) none) = some o ∧
        o.mError.ErrorCode = exampleCodes.PlayFabErrorServiceUnavailable ∧
        o.mError.HttpCode = 503 ∧
        o.mError.ErrorName = "ServiceUnavailable" ∧
        o.mError.ErrorMessage = cString exampleHtml ∧
        (nulFree exampleHtml = true → o.mError.ErrorMessage = exampleHtml)) ∧
    (cString nulText = "ab" ∧
      ∃ o, HandleErrorReport exampleCodes PlayFabSettings.new nulTextRequest = some o ∧
        o.mError.ErrorCode = exampleCodes.PlayFabErrorServiceUnavailable ∧
        o.mError.HttpCode = 503 ∧
        o.mError.ErrorName = "ServiceUnavailable" ∧
        o.mError.ErrorMessage = cString nulText ∧
        (nulFree nulText = true → o.mError.ErrorMessage = nulText)) :=
  ⟨⟨by decide, by decide, by decide,
      HandleErrorReport_not_json exampleCodes PlayFabSettings.new
        (exampleRequest 28 (some exampleHtml) (some exampleNoJson) none) exampleNoJson exampleHtml
        (by decide) rfl rfl (by decide)⟩,
    ⟨by decide,
      HandleErrorReport_not_json exampleCodes PlayFabSettings.new nulTextRequest exampleNoJson
        nulText (by decide) rfl rfl (by decide)⟩⟩

/-! ## C3: the structured error body -/

/-- C3 as stated fails. Both bodies are non-empty JSON objects that carry an
integer `errorCode`, an integer `code` and string `status`, `error` and
`errorMessage` members. For the first, whose `errorDetails` is
`{"Email":[1]}`, no record is produced: line 78 calls `GetString()` on the
number. For the second, whose `error` member is `"Invalid\u0000Params"`, the
record has `ErrorName = "Invalid"`, not the value of the member: line 65
assigns a `const char*`. -/
theorem HandleErrorReport_structured_error_counterexample :
    (carriesFiveMembers numberDetailBody = true ∧
      HandleErrorReport exampleCodes PlayFabSettings.new numberDetailRequest = none) ∧
    (carriesFiveMembers nulNameBody = true ∧
      (findMember nulNameBody "error").map (fun m => m.2.GetString) =
        some (some "Invalid\x00Params") ∧
      (HandleErrorReport exampleCodes PlayFabSettings.new nulNameRequest).map
          (fun o => o.mError.ErrorName) = some "Invalid" ∧
      "Invalid\x00Params" ≠ "Invalid") := by
  decide

/-- C3, amended. For every non-empty response body that is a JSON object
carrying an `errorCode` and a `code` that are integers of the 32-bit `int` the
record stores, and string `status`, `error` and `errorMessage` members, and
whose `errorDetails`, if an object, has only strings in its arrays,
`HandleErrorReport` produces a record whose `ErrorCode` and `HttpCode` are the
two integers and whose `HttpStatus`, `ErrorName` and `ErrorMessage` are the
three strings up to their first NUL character (the strings themselves when
they hold no NUL). On the spec's example body the record is 1074, 400,
"BadRequest", "InvalidParams", "bad input" and `ErrorDetails` holds exactly the
pair ("Email", "Email address is not valid."), whatever handlers are
registered. -/
theorem HandleErrorReport_structured_error :
    (∀ (codes : PlayFabErrorCodes) (settings : PlayFabSettings) (req : PlayFabRequest)
      (members : List Member) (errorCode code : Int) (status error errorMessage : String),
      req.mResponseSize ≠ 0 →
      req.mResponseJson = some ⟨kParseErrorNone, Value.object members⟩ →
      findMember members "errorCode" =
        some ("errorCode", Value.number (Number.integer errorCode)) →
      isInt32 errorCode = true →
      findMember members "code" = some ("code", Value.number (Number.integer code)) →
      isInt32 code = true →
      findMember members "status" = some ("status", Value.string status) →
      findMember members "error" = some ("error", Value.string error) →
      findMember members "errorMessage" = some ("errorMessage", Value.string errorMessage) →
      detailsReadable members = true →
      ∃ o, HandleErrorReport codes settings req = some o ∧
        o.mError.ErrorCode = errorCode ∧
        o.mError.HttpCode = code ∧
        o.mError.HttpStatus = cString status ∧
        o.mError.ErrorName = cString error ∧
        o.mError.ErrorMessage = cString errorMessage ∧
        (nulFree status = true → o.mError.HttpStatus = status) ∧
        (nulFree error = true → o.mError.ErrorName = error) ∧
        (nulFree errorMessage = true → o.mError.ErrorMessage = errorMessage)) ∧
    (∀ (codes : PlayFabErrorCodes) (settings : PlayFabSettings)
      (callback : Option ErrorCallback),
      (HandleErrorReport codes settings (exampleErrorRequest callback)).map (fun o => o.mError) =
        some
          { HttpCode := 400
            HttpStatus := "BadRequest"
            ErrorCode := 1074
            ErrorName := "InvalidParams"
            ErrorMessage := "bad input"
            ErrorDetails := [("Email", "Email address is not valid.")] }) := by
  constructor
  · intro codes settings req members errorCode code status error errorMessage hsize hjson
      hec hec32 hc hc32 hst hen hem hdet
    have hb : buildError codes req = some
        { HttpCode := code
          HttpStatus := cString status
          ErrorCode := errorCode
          ErrorName := cString error
          ErrorMessage := cString errorMessage
          ErrorDetails := detailsOf members } := by
      simp [buildError, hsize, hjson, errorFromJson, Value.FindMember, Value.Members, hec, hc,
        hst, hen, hem, readErrorDetails_readable members hdet, intOr, stringOr, Value.IsNumber,
        Value.IsString, Value.GetInt, Value.GetString, hec32, hc32]
    obtain ⟨o, ho, he⟩ := HandleErrorReport_of_buildError codes settings req _ hb
    refine ⟨o, ho, by simp [he], by simp [he], by simp [he], by simp [he], by simp [he],
      ?_, ?_, ?_⟩
    · intro hn
      rw [he]
      exact cString_of_nulFree status hn
    · intro hn
      rw [he]
      exact cString_of_nulFree error hn
    · intro hn
      rw [he]
      exact cString_of_nulFree errorMessage hn
  · intro codes settings callback
    have hb : buildError codes (exampleErrorRequest callback) = some
        { HttpCode := 400
          HttpStatus := "BadRequest"
          ErrorCode := 1074
          ErrorName := "InvalidParams"
          ErrorMessage := "bad input"
          ErrorDetails := [("Email", "Email address is not valid.")] } := by
      rfl
    obtain ⟨o, ho, he⟩ := HandleErrorReport_of_buildError codes settings _ _ hb
    rw [ho, Option.map_some', he]

/-- C3, amended, the general part applied to the request that received the
spec's example body. -/
theorem HandleErrorReport_structured_error_witness :
    (exampleErrorRequest none).mResponseSize ≠ 0 ∧
    detailsReadable
      [("errorCode", Value.number (Number.integer 1074)),
       ("code", Value.number (Number.integer 400)),
       ("status", Value.string "BadRequest"),
       ("error", Value.string "InvalidParams"),
       ("errorMessage", Value.string "bad input"),
       ("errorDetails",
         Value.object [("Email", Value.array [Value.string "Email address is not valid."])])]
      = true ∧
    ∃ o, HandleErrorReport exampleCodes PlayFabSettings.new (exampleErrorRequest none) = some o ∧
      o.mError.ErrorCode = 1074 ∧
      o.mError.HttpCode = 400 ∧
      o.mError.HttpStatus = cString "BadRequest" ∧
      o.mError.ErrorName = cString "InvalidParams" ∧
      o.mError.ErrorMessage = cString "bad input" ∧
      (nulFree "BadRequest" = true → o.mError.HttpStatus = "BadRequest") ∧
      (nulFree "InvalidParams" = true → o.mError.ErrorName = "InvalidParams") ∧
      (nulFree "bad input" = true → o.mError.ErrorMessage = "bad input") :=
  ⟨by decide, by decide,
    HandleErrorReport_structured_error.1 exampleCodes PlayFabSettings.new
      (exampleErrorRequest none) _ 1074 400 "BadRequest" "InvalidParams" "bad input"
      (by decide) rfl rfl (by decide) rfl (by decide) rfl rfl rfl (by decide)⟩

/-! ## C4: every field has its own fallback -/

/-- C4 as stated fails. The bodies `{"code":1.5}` and
`{"errorCode":4000000000}` are non-empty JSON objects whose `code`, respectively
`errorCode`, member is present and numeric (`IsNumber()` holds), yet no record
with that member as `HttpCode`, respectively `ErrorCode`, is produced:
`GetInt()` is called on a number that is no 32-bit integer. -/
theorem HandleErrorReport_numeric_member_counterexample :
    ((findMember fractionalCode "code").map (fun m => m.2.IsNumber) = some true ∧
      HandleErrorReport exampleCodes PlayFabSettings.new
        (exampleRequest 12 (some "\x7b\"code\":1.5\x7d")
          (some ⟨kParseErrorNone, Value.object fractionalCode⟩) none) = none) ∧
    ((findMember largeErrorCode "errorCode").map (fun m => m.2.IsNumber) = some true ∧
      HandleErrorReport exampleCodes PlayFabSettings.new
        (exampleRequest 24 (some "\x7b\"errorCode\":4000000000\x7d")
          (some ⟨kParseErrorNone, Value.object largeErrorCode⟩) none) = none) := by
  decide

/-- C4, amended. For every non-empty response body that parses as a JSON
object whose `errorCode` and `code` members, where numbers, are 32-bit integers
and whose `errorDetails` arrays hold strings, a record is produced and each of
the five scalar fields is a function of its own member alone: `ErrorCode` is
the `errorCode` member if present and a number, else
`PlayFabErrorServiceUnavailable`; `HttpCode` is the `code` member if present
and a number, else 503; `HttpStatus` is the `status` member if present and a
string, else "ServiceUnavailable"; `ErrorName` is the `error` member if
present and a string, else "ServiceUnavailable"; `ErrorMessage` is the
`errorMessage` member if present and a string, else the response text; each of
the three texts up to its first NUL character, which is the whole text when it
holds no NUL. -/
theorem HandleErrorReport_field_fallbacks (codes : PlayFabErrorCodes)
    (settings : PlayFabSettings) (req : PlayFabRequest) (members : List Member) (text : String)
    (hsize : req.mResponseSize ≠ 0) (htext : req.mResponseText = some text)
    (hjson : req.mResponseJson = some ⟨kParseErrorNone, Value.object members⟩)
    (hwf : ReadableErrorBody members = true) :
    ∃ o, HandleErrorReport codes settings req = some o ∧
      o.mError.ErrorCode =
        numericMemberOr (findMember members "errorCode") codes.PlayFabErrorServiceUnavailable ∧
      o.mError.HttpCode = numericMemberOr (findMember members "code") 503 ∧
      o.mError.HttpStatus =
        cString (stringMemberOr (findMember members "status") "ServiceUnavailable") ∧
      o.mError.ErrorName =
        cString (stringMemberOr (findMember members "error") "ServiceUnavailable") ∧
      o.mError.ErrorMessage = cString (stringMemberOr (findMember members "errorMessage") text) ∧
      (nulFree (stringMemberOr (findMember members "status") "ServiceUnavailable") = true →
        o.mError.HttpStatus = stringMemberOr (findMember members "status") "ServiceUnavailable") ∧
      (nulFree (stringMemberOr (findMember members "error") "ServiceUnavailable") = true →
        o.mError.ErrorName = stringMemberOr (findMember members "error") "ServiceUnavailable") ∧
      (nulFree (stringMemberOr (findMember members "errorMessage") text) = true →
        o.mError.ErrorMessage = stringMemberOr (findMember members "errorMessage") text) := by
  obtain ⟨o, ho, he⟩ := HandleErrorReport_of_buildError codes settings req _
    (buildError_object codes req members text hsize htext hjson hwf)
  refine ⟨o, ho, by simp [he], by simp [he], by simp [he], by simp [he], by simp [he],
    ?_, ?_, ?_⟩
  · intro hn
    rw [he]
    exact cString_of_nulFree _ hn
  · intro hn
    rw [he]
    exact cString_of_nulFree _ hn
  · intro hn
    rw [he]
    exact cString_of_nulFree _ hn

/-- C4, amended, at the body `{"code":404,"status":7}` (the code is read, the
wrong-typed status and the three missing members fall back one by one) and at
the response `{"code":404}`, NUL, `tail`, whose message is the text before the
NUL. -/
theorem HandleErrorReport_field_fallbacks_witness :
    (ReadableErrorBody sparseBody = true ∧
      ∃ o, HandleErrorReport exampleCodes PlayFabSettings.new
          (exampleRequest 23 (some "\x7b\"code\":404,\"status\":7\x7d")
            (some ⟨kParseErrorNone, Value.object sparseBody⟩) none) = some o ∧
        o.mError.ErrorCode = 1123 ∧
        o.mError.HttpCode = 404 ∧
        o.mError.HttpStatus = "ServiceUnavailable" ∧
        o.mError.ErrorName = "ServiceUnavailable" ∧
        o.mError.ErrorMessage = "\x7b\"code\":404,\"status\":7\x7d") ∧
    (∃ o, HandleErrorReport exampleCodes PlayFabSettings.new nulTailRequest = some o ∧
        o.mError.HttpCode = 404 ∧
        o.mError.ErrorMessage = "\x7b\"code\":404\x7d") := by
  refine ⟨⟨by decide, ?_⟩, ?_⟩
  · obtain ⟨o, ho, h1, h2, h3, h4, h5, _⟩ :=
      HandleErrorReport_field_fallbacks exampleCodes PlayFabSettings.new
        (exampleRequest 23 (some "\x7b\"code\":404,\"status\":7\x7d")
          (some ⟨kParseErrorNone, Value.object sparseBody⟩) none)
        sparseBody "\x7b\"code\":404,\"status\":7\x7d" (by decide) rfl rfl (by decide)
    exact ⟨o, ho, h1, h2, h3.trans (by decide), h4.trans (by decide), h5.trans (by decide)⟩
  · obtain ⟨o, ho, _, h2, _, _, h5, _⟩ :=
      HandleErrorReport_field_fallbacks exampleCodes PlayFabSettings.new nulTailRequest
        [("code", Value.number (Number.integer 404))] "\x7b\"code\":404\x7d\x00tail"
        (by decide) rfl rfl (by decide)
    exact ⟨o, ho, h2, h5.trans (by decide)⟩

/-! ## C5: the status phrase of the path without JSON -/

/-- C5 fails on the code. For the empty response `HttpStatus` ends as
"Request Timeout or null response", not "RequestTimeout", and for the response
that is not JSON it ends as the response text, not "ServiceUnavailable": line
91 assigns the message to `HttpStatus` too, over the value of line 87. -/
theorem HandleErrorReport_status_overwritten :
    (HandleErrorReport exampleCodes PlayFabSettings.new exampleEmptyRequest).map
        (fun o => (o.mError.HttpStatus, o.mError.ErrorMessage)) =
      some ("Request Timeout or null response", "Request Timeout or null response") ∧
    (HandleErrorReport exampleCodes PlayFabSettings.new
        (exampleRequest 28 (some exampleHtml) (some exampleNoJson) none)).map
        (fun o => (o.mError.HttpStatus, o.mError.ErrorMessage)) =
      some ("<html>502 Bad Gateway</html>", "<html>502 Bad Gateway</html>") := by
  decide

/-! ## C6, C7, C8: the entries of `ErrorDetails` -/

theorem mem_strings (elements : List Value) (s : String) :
    s ∈ elements.filterMap Value.GetString ↔ Value.string s ∈ elements := by
  rw [List.mem_filterMap]
  constructor
  · rintro ⟨v, hv, hs⟩
    cases v <;> simp [Value.GetString] at hs
    subst hs
    exact hv
  · intro h
    exact ⟨Value.string s, h, rfl⟩

theorem mem_detailPairs (details : List Member) (e : String × String) :
    e ∈ detailPairs details ↔
      ∃ elements, (e.1, Value.array elements) ∈ details ∧ Value.string e.2 ∈ elements := by
  induction details with
  | nil => simp [detailPairs]
  | cons m rest ih =>
    obtain ⟨name, v⟩ := m
    obtain ⟨k, s⟩ := e
    simp only [detailPairs, List.mem_append, ih, List.mem_cons]
    cases v with
    | array elements =>
      simp only [List.mem_map, mem_strings, Prod.mk.injEq]
      constructor
      · rintro (⟨s', hs', hk, rfl⟩ | ⟨els, hmem, hs⟩)
        · exact ⟨elements, Or.inl ⟨hk.symm, rfl⟩, hs'⟩
        · exact ⟨els, Or.inr hmem, hs⟩
      · rintro ⟨els, (⟨hk, hv⟩ | hmem), hs⟩
        · cases hv
          exact Or.inl ⟨s, hs, hk.symm, rfl⟩
        · exact Or.inr ⟨els, hmem, hs⟩
    | _ => simp

theorem messagesOf_append (field : String) (p q : List (String × String)) :
    messagesOf field (p ++ q) = messagesOf field p ++ messagesOf field q := by
  simp [messagesOf]

theorem messagesOf_field (field : String) (l : List String) :
    messagesOf (cString field) ((l.map (fun s => (field, s))).map storedPair) =
      l.map cString := by
  induction l with
  | nil => rfl
  | cons s rest ih =>
    simp only [messagesOf, List.map_map] at ih
    simp [messagesOf, storedPair, ih]

theorem strings_sublist_messagesOf (details : List Member) (field : String)
    (elements : List Value) (h : (field, Value.array elements) ∈ details) :
    ((elements.filterMap Value.GetString).map cString).Sublist
      (messagesOf (cString field) ((detailPairs details).map storedPair)) := by
  induction details with
  | nil => simp at h
  | cons m rest ih =>
    simp only [detailPairs, List.map_append, messagesOf_append]
    rcases List.mem_cons.mp h with heq | hmem
    · subst heq
      simp only [messagesOf_field]
      exact List.sublist_append_left _ _
    · exact (ih hmem).trans (List.sublist_append_right _ _)

theorem detailsOf_object (members : List Member) (name : String) (details : List Member)
    (h : findMember members "errorDetails" = some (name, Value.object details)) :
    detailsOf members = (detailPairs details).map storedPair := by
  simp [detailsOf, h]

theorem detailsOf_no_object (members : List Member)
    (h : findMember members "errorDetails" = none ∨
      ∃ m, findMember members "errorDetails" = some m ∧ m.2.IsObject = false) :
    detailsOf members = [] := by
  unfold detailsOf
  rcases h with h | ⟨m, h, hm⟩
  · simp [h]
  · obtain ⟨n, v⟩ := m
    rw [h]
    cases v <;> simp [Value.IsObject] at hm ⊢

theorem stringArrays_of_readable (members : List Member) (name : String)
    (details : List Member) (hwf : ReadableErrorBody members = true)
    (h : findMember members "errorDetails" = some (name, Value.object details)) :
    stringArrays details = true := by
  simp only [ReadableErrorBody, Bool.and_eq_true] at hwf
  have h3 := hwf.2
  unfold detailsReadable at h3
  rw [h] at h3
  exact h3

/-- C6 as stated fails. Both bodies parse as JSON and have an object as
`errorDetails`. For `{"errorDetails":{"Email":["Email address is not
valid.",7]}}` no record is produced, so no entry stands for the first element
of the array: line 78 calls `GetString()` on the number 7. For
`{"errorDetails":{"Email":["Email\u0000 address is not valid."]}}` the one
entry is ("Email", "Email"): the message string of the body is not a value of
`ErrorDetails`, line 78 building the pair from `const char*`. -/
theorem HandleErrorReport_details_entries_counterexample :
    (arrayLengths mixedArray = 2 ∧
      HandleErrorReport exampleCodes PlayFabSettings.new mixedArrayRequest = none) ∧
    (detailPairs nulMessage = [("Email", "Email\x00 address is not valid.")] ∧
      (HandleErrorReport exampleCodes PlayFabSettings.new nulMessageRequest).map
          (fun o => o.mError.ErrorDetails) = some [("Email", "Email")] ∧
      "Email\x00 address is not valid." ∉ [("Email", "Email")].map (fun e => e.2)) := by
  decide

/-- C6, amended. For every non-empty response body that parses as a JSON
object whose `errorCode` and `code` members, where numbers, are 32-bit integers
and whose `errorDetails`, where an object, has only strings in its arrays, a
record is produced, and
* when the `errorDetails` member is an object, `ErrorDetails` holds exactly one
  entry per element of each array-valued member, the field name and the
  message each up to its first NUL character: it is a rearrangement of these
  pairs (of the pairs of the body themselves when they hold no NUL), its
  length is the sum of the lengths of the arrays, every message of an array is
  the value of an entry under the name of its member, and every entry comes
  from an element of an array-valued member (a member that is no array
  contributes nothing);
* when `errorDetails` is absent or no object, `ErrorDetails` is empty. -/
theorem HandleErrorReport_details_entries (codes : PlayFabErrorCodes)
    (settings : PlayFabSettings) (req : PlayFabRequest) (members : List Member) (text : String)
    (hsize : req.mResponseSize ≠ 0) (htext : req.mResponseText = some text)
    (hjson : req.mResponseJson = some ⟨kParseErrorNone, Value.object members⟩)
    (hwf : ReadableErrorBody members = true) :
    ∃ o, HandleErrorReport codes settings req = some o ∧
      (∀ (name : String) (details : List Member),
        findMember members "errorDetails" = some (name, Value.object details) →
        o.mError.ErrorDetails.Perm ((detailPairs details).map storedPair) ∧
        ((∀ e ∈ detailPairs details, nulFree e.1 = true ∧ nulFree e.2 = true) →
          o.mError.ErrorDetails.Perm (detailPairs details)) ∧
        o.mError.ErrorDetails.length = arrayLengths details ∧
        (∀ (field : String) (elements : List Value) (message : String),
          (field, Value.array elements) ∈ details → Value.string message ∈ elements →
          (cString field, cString message) ∈ o.mError.ErrorDetails) ∧
        (∀ entry ∈ o.mError.ErrorDetails, ∃ (field : String) (elements : List Value)
          (message : String),
          (field, Value.array elements) ∈ details ∧ Value.string message ∈ elements ∧
          entry = (cString field, cString message))) ∧
      ((findMember members "errorDetails" = none ∨
          ∃ m, findMember members "errorDetails" = some m ∧ m.2.IsObject = false) →
        o.mError.ErrorDetails = []) := by
  obtain ⟨o, ho, he⟩ := HandleErrorReport_of_buildError codes settings req _
    (buildError_object codes req members text hsize htext hjson hwf)
  refine ⟨o, ho, ?_, ?_⟩
  · intro name details hdet
    have hstr := stringArrays_of_readable members name details hwf hdet
    have hd : o.mError.ErrorDetails = (detailPairs details).map storedPair := by
      rw [he]
      exact detailsOf_object members name details hdet
    refine ⟨?_, ?_, ?_, ?_, ?_⟩
    · rw [hd]
    · intro hnul
      rw [hd, map_storedPair_of_nulFree _ hnul]
    · rw [hd, List.length_map, detailPairs_length details hstr]
    · intro field elements message hmem hmsg
      rw [hd]
      exact List.mem_map.mpr ⟨(field, message),
        (mem_detailPairs details (field, message)).mpr ⟨elements, hmem, hmsg⟩, rfl⟩
    · intro entry hentry
      rw [hd] at hentry
      obtain ⟨pair, hpair, hentry⟩ := List.mem_map.mp hentry
      obtain ⟨elements, hmem, hmsg⟩ := (mem_detailPairs details pair).mp hpair
      exact ⟨pair.1, elements, pair.2, hmem, hmsg, hentry.symm⟩
  · intro hno
    rw [he]
    exact detailsOf_no_object members hno

/-- C6, amended, at the body whose `errorDetails` has one message for `Email`,
two for `Password` and a member `Note` that is no array: three entries. -/
theorem HandleErrorReport_details_entries_witness :
    ReadableErrorBody [("errorDetails", Value.object twoMessages)] = true ∧
    arrayLengths twoMessages = 3 ∧
    ∃ o, HandleErrorReport exampleCodes PlayFabSettings.new twoMessagesRequest = some o ∧
      (∀ (name : String) (details : List Member),
        findMember [("errorDetails", Value.object twoMessages)] "errorDetails" =
          some (name, Value.object details) →
        o.mError.ErrorDetails.Perm ((detailPairs details).map storedPair) ∧
        ((∀ e ∈ detailPairs details, nulFree e.1 = true ∧ nulFree e.2 = true) →
          o.mError.ErrorDetails.Perm (detailPairs details)) ∧
        o.mError.ErrorDetails.length = arrayLengths details ∧
        (∀ (field : String) (elements : List Value) (message : String),
          (field, Value.array elements) ∈ details → Value.string message ∈ elements →
          (cString field, cString message) ∈ o.mError.ErrorDetails) ∧
        (∀ entry ∈ o.mError.ErrorDetails, ∃ (field : String) (elements : List Value)
          (message : String),
          (field, Value.array elements) ∈ details ∧ Value.string message ∈ elements ∧
          entry = (cString field, cString message))) ∧
      ((findMember [("errorDetails", Value.object twoMessages)] "errorDetails" = none ∨
          ∃ m, findMember [("errorDetails", Value.object twoMessages)] "errorDetails" = some m ∧
            m.2.IsObject = false) →
        o.mError.ErrorDetails = []) :=
  ⟨by decide, by decide,
    HandleErrorReport_details_entries exampleCodes PlayFabSettings.new twoMessagesRequest
      [("errorDetails", Value.object twoMessages)] _ (by decide) rfl rfl (by decide)⟩

/-- C7 as stated fails. Both bodies parse as JSON. For
`{"errorCode":4000000000,"errorDetails":{"Password":["a"],"Email":["b"]}}` no
record is produced, so there is no `ErrorDetails` to iterate: line 59 calls
`GetInt()` on a number that is no 32-bit integer. For
`{"errorDetails":{"Pass\u0000word":["a"],"Email":["b"]}}` the iteration yields
("Pass", "a"), ("Email", "b"), which are not the (field, message) pairs of the
body: line 78 builds the field name from a `const char*`. -/
theorem HandleErrorReport_details_order_counterexample :
    (detailPairs twoFields = [("Password", "a"), ("Email", "b")] ∧
      HandleErrorReport exampleCodes PlayFabSettings.new largeCodeDetailsRequest = none) ∧
    (detailPairs nulField = [("Pass\x00word", "a"), ("Email", "b")] ∧
      (HandleErrorReport exampleCodes PlayFabSettings.new nulFieldRequest).map
          (fun o => o.mError.ErrorDetails) = some [("Pass", "a"), ("Email", "b")] ∧
      [("Pass", "a"), ("Email", "b")] ≠ [("Pass\x00word", "a"), ("Email", "b")]) := by
  decide

/-- C7, amended. For every non-empty response body that parses as a JSON
object whose `errorCode` and `code` members, where numbers, are 32-bit integers
and whose `errorDetails`, where an object, has only strings in its arrays, a
record is produced, and iterating its `ErrorDetails` yields the (field,
message) pairs of the `errorDetails` object in their order of appearance in
the body (members in the order of the object, not in the order of their names;
within a member the messages in array order), each field name and message up
to its first NUL character: the pairs of the body themselves when they hold no
NUL. -/
theorem HandleErrorReport_details_order (codes : PlayFabErrorCodes)
    (settings : PlayFabSettings) (req : PlayFabRequest) (members : List Member) (text : String)
    (hsize : req.mResponseSize ≠ 0) (htext : req.mResponseText = some text)
    (hjson : req.mResponseJson = some ⟨kParseErrorNone, Value.object members⟩)
    (hwf : ReadableErrorBody members = true) :
    ∃ o, HandleErrorReport codes settings req = some o ∧
      ∀ (name : String) (details : List Member),
        findMember members "errorDetails" = some (name, Value.object details) →
        o.mError.ErrorDetails = (detailPairs details).map storedPair ∧
        ((∀ e ∈ detailPairs details, nulFree e.1 = true ∧ nulFree e.2 = true) →
          o.mError.ErrorDetails = detailPairs details) := by
  obtain ⟨o, ho, he⟩ := HandleErrorReport_of_buildError codes settings req _
    (buildError_object codes req members text hsize htext hjson hwf)
  refine ⟨o, ho, ?_⟩
  intro name details hdet
  have hd : o.mError.ErrorDetails = (detailPairs details).map storedPair := by
    rw [he]
    exact detailsOf_object members name details hdet
  refine ⟨hd, ?_⟩
  intro hnul
  rw [hd, map_storedPair_of_nulFree _ hnul]

/-- C7, amended, at the body in which `Password` appears before `Email`: the
entry of `Password` comes first. -/
theorem HandleErrorReport_details_order_witness :
    ReadableErrorBody [("errorDetails", Value.object passwordFirst)] = true ∧
    detailPairs passwordFirst =
      [("Password", "Password must be between 6 and 100 characters."),
       ("Email", "Email address is not valid.")] ∧
    (HandleErrorReport exampleCodes PlayFabSettings.new passwordFirstRequest).map
        (fun o => o.mError.ErrorDetails) =
      some [("Password", "Password must be between 6 and 100 characters."),
        ("Email", "Email address is not valid.")] ∧
    ∃ o, HandleErrorReport exampleCodes PlayFabSettings.new passwordFirstRequest = some o ∧
      ∀ (name : String) (details : List Member),
        findMember [("errorDetails", Value.object passwordFirst)] "errorDetails" =
          some (name, Value.object details) →
        o.mError.ErrorDetails = (detailPairs details).map storedPair ∧
        ((∀ e ∈ detailPairs details, nulFree e.1 = true ∧ nulFree e.2 = true) →
          o.mError.ErrorDetails = detailPairs details) :=
  ⟨by decide, by decide, by decide,
    HandleErrorReport_details_order exampleCodes PlayFabSettings.new passwordFirstRequest
      [("errorDetails", Value.object passwordFirst)] _ (by decide) rfl rfl (by decide)⟩

/-- C8 as stated fails. Both bodies parse as JSON and give the field `A` two
messages. For `{"code":1.5,"errorDetails":{"A":["x","y"]}}` no record is
produced, so no message is stored under `A`: line 61 calls `GetInt()` on 1.5.
For `{"errorDetails":{"A":["x\u0000y","z"]}}` the messages stored under `A` are
"x" and "z": the first is not the first message of the source array, line 78
building it from a `const char*`. -/
theorem HandleErrorReport_messages_order_counterexample :
    (messagesOf "A" (detailPairs twoInOneField) = ["x", "y"] ∧
      HandleErrorReport exampleCodes PlayFabSettings.new fractionalCodeDetailsRequest = none) ∧
    (messagesOf "A" (detailPairs nulMessages) = ["x\x00y", "z"] ∧
      (HandleErrorReport exampleCodes PlayFabSettings.new nulMessagesRequest).map
          (fun o => messagesOf "A" o.mError.ErrorDetails) = some ["x", "z"] ∧
      ["x", "z"] ≠ ["x\x00y", "z"]) := by
  decide

/-- C8, amended. For every non-empty response body that parses as a JSON
object whose `errorCode` and `code` members, where numbers, are 32-bit integers
and whose `errorDetails` is an object with only strings in its arrays, a record
is produced, and for every field name the messages stored under it in
`ErrorDetails` are, in their order of appearance in the body, the messages of
the members that are stored under this name, each message up to its first NUL
character; so the messages of each source array appear, in the order of the
array, among the messages stored under the name of its member. -/
theorem HandleErrorReport_messages_order (codes : PlayFabErrorCodes)
    (settings : PlayFabSettings) (req : PlayFabRequest) (members : List Member) (text : String)
    (hsize : req.mResponseSize ≠ 0) (htext : req.mResponseText = some text)
    (hjson : req.mResponseJson = some ⟨kParseErrorNone, Value.object members⟩)
    (hwf : ReadableErrorBody members = true) :
    ∃ o, HandleErrorReport codes settings req = some o ∧
      ∀ (name : String) (details : List Member),
        findMember members "errorDetails" = some (name, Value.object details) →
        (∀ field : String,
          messagesOf field o.mError.ErrorDetails =
            messagesOf field ((detailPairs details).map storedPair)) ∧
        (∀ (field : String) (elements : List Value),
          (field, Value.array elements) ∈ details →
          ((elements.filterMap Value.GetString).map cString).Sublist
            (messagesOf (cString field) o.mError.ErrorDetails)) ∧
        (∀ (field : String) (elements : List Value),
          (field, Value.array elements) ∈ details →
          nulFree field = true →
          (∀ message ∈ elements.filterMap Value.GetString, nulFree message = true) →
          (elements.filterMap Value.GetString).Sublist
            (messagesOf field o.mError.ErrorDetails)) := by
  obtain ⟨o, ho, he⟩ := HandleErrorReport_of_buildError codes settings req _
    (buildError_object codes req members text hsize htext hjson hwf)
  refine ⟨o, ho, ?_⟩
  intro name details hdet
  have hd : o.mError.ErrorDetails = (detailPairs details).map storedPair := by
    rw [he]
    exact detailsOf_object members name details hdet
  have hsub : ∀ (field : String) (elements : List Value),
      (field, Value.array elements) ∈ details →
      ((elements.filterMap Value.GetString).map cString).Sublist
        (messagesOf (cString field) o.mError.ErrorDetails) := by
    intro field elements hmem
    rw [hd]
    exact strings_sublist_messagesOf details field elements hmem
  refine ⟨fun field => by rw [hd], hsub, ?_⟩
  intro field elements hmem hfield hmsgs
  have h := hsub field elements hmem
  rw [cString_of_nulFree field hfield] at h
  have hmap : (elements.filterMap Value.GetString).map cString =
      elements.filterMap Value.GetString := by
    conv_rhs => rw [← List.map_id (elements.filterMap Value.GetString)]
    exact List.map_congr_left (fun s hs => cString_of_nulFree s (hmsgs s hs))
  rw [hmap] at h
  exact h

/-- C8, amended, at the body whose field `Password` has two messages. -/
theorem HandleErrorReport_messages_order_witness :
    ReadableErrorBody [("errorDetails", Value.object twoMessages)] = true ∧
    messagesOf "Password" (detailPairs twoMessages) =
      ["Password must be between 6 and 100 characters.", "Password is too common."] ∧
    (HandleErrorReport exampleCodes PlayFabSettings.new twoMessagesRequest).map
        (fun o => messagesOf "Password" o.mError.ErrorDetails) =
      some ["Password must be between 6 and 100 characters.", "Password is too common."] ∧
    ∃ o, HandleErrorReport exampleCodes PlayFabSettings.new twoMessagesRequest = some o ∧
      ∀ (name : String) (details : List Member),
        findMember [("errorDetails", Value.object twoMessages)] "errorDetails" =
          some (name, Value.object details) →
        (∀ field : String,
          messagesOf field o.mError.ErrorDetails =
            messagesOf field ((detailPairs details).map storedPair)) ∧
        (∀ (field : String) (elements : List Value),
          (field, Value.array elements) ∈ details →
          ((elements.filterMap Value.GetString).map cString).Sublist
            (messagesOf (cString field) o.mError.ErrorDetails)) ∧
        (∀ (field : String) (elements : List Value),
          (field, Value.array elements) ∈ details →
          nulFree field = true →
          (∀ message ∈ elements.filterMap Value.GetString, nulFree message = true) →
          (elements.filterMap Value.GetString).Sublist
            (messagesOf field o.mError.ErrorDetails)) :=
  ⟨by decide, by decide, by decide,
    HandleErrorReport_messages_order exampleCodes PlayFabSettings.new twoMessagesRequest
      [("errorDetails", Value.object twoMessages)] _ (by decide) rfl rfl (by decide)⟩

/-! ## C9, C10: the error callbacks -/

/-- C9 as stated fails. With a global error handler that throws and an error
callback registered on the request that received the spec's example body, the
sequence of invocations is the global handler alone: the callback of the
request does not follow it. With both handlers registered and the body `[]`,
which parses as JSON, no handler is invoked at all: lines 57-58 call
`MemberEnd()` and `FindMember()` on a root that is no object. -/
theorem HandleErrorReport_handler_sequence_counterexample :
    ((settingsWith (some throwing)).globalErrorHandler.isSome = true ∧
      (exampleErrorRequest (some returning)).mErrorCallback.isSome = true ∧
      (HandleErrorReport exampleCodes (settingsWith (some throwing))
          (exampleErrorRequest (some returning))).map
          (fun o => o.calls.map (fun c => c.handler)) = some [Handler.globalErrorHandler] ∧
      [Handler.globalErrorHandler] ≠ [Handler.globalErrorHandler, Handler.mErrorCallback]) ∧
    HandleErrorReport exampleCodes (settingsWith (some returning))
        (exampleRequest 2 (some "[]") (some ⟨kParseErrorNone, Value.array []⟩)
          (some returning)) = none := by
  decide

/-- C9, amended. For every call of `HandleErrorReport` that builds its record,
the sequence of handler invocations is: the global error handler once if one
is registered, followed, unless the global handler threw, by the error callback
of the request once if one is registered, and nothing else; when the global
handler throws, its invocation is the only one. Each invocation receives the
record the call built and `mCustomData`, which is the custom data the
constructor was given. -/
theorem HandleErrorReport_handler_sequence (codes : PlayFabErrorCodes)
    (settings : PlayFabSettings) (req : PlayFabRequest) (o : Outcome)
    (h : HandleErrorReport codes settings req = some o) :
    o.calls =
      (match settings.globalErrorHandler with
        | some _ => [⟨Handler.globalErrorHandler, o.mError, req.mCustomData⟩]
        | none => []) ++
      (if globalHandlerReturns settings o.mError req.mCustomData = true then
        match req.mErrorCallback with
        | some _ => [⟨Handler.mErrorCallback, o.mError, req.mCustomData⟩]
        | none => []
      else []) ∧
    ∀ (URI : String) (method : HttpMethod) (authKey authValue requestJsonBody : String)
      (customData : CustomData) (mResultCallback : Nat) (mErrorCallback : Option ErrorCallback)
      (internalCallback : HttpCallback),
      (PlayFabRequest.new URI method authKey authValue requestJsonBody customData
        mResultCallback mErrorCallback internalCallback).mCustomData = customData := by
  refine ⟨?_, fun _ _ _ _ _ _ _ _ _ => rfl⟩
  obtain ⟨_, ho⟩ := buildError_of_HandleErrorReport codes settings req o h
  generalize o.mError = e at ho
  subst ho
  unfold sendErrorCallbacks globalHandlerReturns
  cases hg : settings.globalErrorHandler with
  | none => cases req.mErrorCallback <;> rfl
  | some g =>
    cases hr : g e req.mCustomData with
    | threw => simp [hr]
    | returned => cases hcb : req.mErrorCallback <;> simp [hr]

/-- C9, amended, at a call with both handlers registered that return, and at
a call whose global handler throws. -/
theorem HandleErrorReport_handler_sequence_witness :
    (HandleErrorReport exampleCodes (settingsWith (some returning))
          (exampleRequest 0 none none (some returning)) =
        some ⟨timeoutError,
          [⟨Handler.globalErrorHandler, timeoutError, 7⟩,
            ⟨Handler.mErrorCallback, timeoutError, 7⟩],
          CallbackExit.returned⟩ ∧
      (sendErrorCallbacks (settingsWith (some returning))
          (exampleRequest 0 none none (some returning)) timeoutError).calls =
        [⟨Handler.globalErrorHandler, timeoutError, 7⟩,
          ⟨Handler.mErrorCallback, timeoutError, 7⟩]) ∧
    (HandleErrorReport exampleCodes (settingsWith (some throwing))
          (exampleRequest 0 none none (some returning)) =
        some ⟨timeoutError, [⟨Handler.globalErrorHandler, timeoutError, 7⟩],
          CallbackExit.threw⟩ ∧
      (sendErrorCallbacks (settingsWith (some throwing))
          (exampleRequest 0 none none (some returning)) timeoutError).calls =
        [⟨Handler.globalErrorHandler, timeoutError, 7⟩]) :=
  ⟨⟨by decide,
      (HandleErrorReport_handler_sequence exampleCodes (settingsWith (some returning))
        (exampleRequest 0 none none (some returning))
        (sendErrorCallbacks (settingsWith (some returning))
          (exampleRequest 0 none none (some returning)) timeoutError)
        rfl).1⟩,
    ⟨by decide,
      (HandleErrorReport_handler_sequence exampleCodes (settingsWith (some throwing))
        (exampleRequest 0 none none (some returning))
        (sendErrorCallbacks (settingsWith (some throwing))
          (exampleRequest 0 none none (some returning)) timeoutError)
        rfl).1⟩⟩

/-- C10 as stated fails. With a global error handler that throws and an error
callback registered on the request, the only invocation is that of the global
handler, and the exception leaves `HandleErrorReport`. -/
theorem HandleErrorReport_throwing_handler_counterexample :
    (settingsWith (some throwing)).globalErrorHandler.isSome = true ∧
    (exampleRequest 0 none none (some returning)).mErrorCallback.isSome = true ∧
    (HandleErrorReport exampleCodes (settingsWith (some throwing))
        (exampleRequest 0 none none (some returning))).map
        (fun o => (o.calls.map (fun c => c.handler), o.exit)) =
      some ([Handler.globalErrorHandler], CallbackExit.threw) := by
  decide

/-- C10, amended. For every call of `HandleErrorReport` that builds its record
with both a global error handler and an error callback of the request
registered: if the global handler returns, the callback of the request is
invoked after it, once, with the same record and custom data; if the global
handler throws, its invocation is the only one and the exception leaves
`HandleErrorReport`, the callback of the request not being invoked. -/
theorem HandleErrorReport_global_handler_exit (codes : PlayFabErrorCodes)
    (settings : PlayFabSettings) (req : PlayFabRequest) (o : Outcome)
    (globalErrorHandler mErrorCallback : ErrorCallback)
    (h : HandleErrorReport codes settings req = some o)
    (hg : settings.globalErrorHandler = some globalErrorHandler)
    (hcb : req.mErrorCallback = some mErrorCallback) :
    (globalErrorHandler o.mError req.mCustomData = CallbackExit.returned →
      o.calls = [⟨Handler.globalErrorHandler, o.mError, req.mCustomData⟩,
        ⟨Handler.mErrorCallback, o.mError, req.mCustomData⟩] ∧
      o.exit = mErrorCallback o.mError req.mCustomData) ∧
    (globalErrorHandler o.mError req.mCustomData = CallbackExit.threw →
      o.calls = [⟨Handler.globalErrorHandler, o.mError, req.mCustomData⟩] ∧
      o.exit = CallbackExit.threw) := by
  obtain ⟨_, ho⟩ := buildError_of_HandleErrorReport codes settings req o h
  generalize o.mError = e at ho
  subst ho
  unfold sendErrorCallbacks
  constructor
  · intro hr
    simp [hg, hcb, hr]
  · intro ht
    simp [hg, ht]

/-- C10, amended, at a call whose global handler throws. -/
theorem HandleErrorReport_global_handler_exit_witness :
    HandleErrorReport exampleCodes (settingsWith (some throwing))
        (exampleRequest 0 none none (some returning)) =
      some ⟨timeoutError, [⟨Handler.globalErrorHandler, timeoutError, 7⟩], CallbackExit.threw⟩ ∧
    (throwing timeoutError 7 = CallbackExit.threw →
      (sendErrorCallbacks (settingsWith (some throwing))
          (exampleRequest 0 none none (some returning)) timeoutError).calls =
        [⟨Handler.globalErrorHandler, timeoutError, 7⟩] ∧
      (sendErrorCallbacks (settingsWith (some throwing))
          (exampleRequest 0 none none (some returning)) timeoutError).exit =
        CallbackExit.threw) :=
  ⟨by decide,
    (HandleErrorReport_global_handler_exit exampleCodes (settingsWith (some throwing))
      (exampleRequest 0 none none (some returning))
      (sendErrorCallbacks (settingsWith (some throwing))
        (exampleRequest 0 none none (some returning)) timeoutError)
      throwing returning rfl rfl rfl).2⟩

/-! ## The request manager: what every run keeps -/

theorem submitted_append (t u : List Event) : submitted (t ++ u) = submitted t ++ submitted u := by
  simp [submitted]

theorem sent_append (t u : List Event) : sent (t ++ u) = sent t ++ sent u := by
  simp [sent]

theorem processed_append (t u : List Event) :
    processed (t ++ u) = processed t ++ processed u := by
  simp [processed]

theorem delivered_append (t u : List Event) :
    delivered (t ++ u) = delivered t ++ delivered u := by
  simp [delivered]

theorem HandleResponse_events (env : Collaborators) (request : RequestPtr) (heap : Heap) :
    (HandleResponse env request heap).2 = [] ∨
      (HandleResponse env request heap).2 = [Event.mInternalCallback request] := by
  unfold HandleResponse
  cases request with
  | none => exact Or.inl rfl
  | some a =>
    cases h : (heap a).httpResponse with
    | none => exact Or.inl (by simp [h])
    | some r => exact Or.inr (by simp [h])

theorem queuesInOrder_new (pending : Int) (heap : Heap) :
    QueuesInOrder (PlayFabRequestManager.new pending heap) := by
  refine ⟨rfl, rfl, fun _ _ => rfl, ?_⟩
  exact List.Sublist.refl _

theorem ThreadFunction_loopHead (env : Collaborators) (settings : PlayFabSettings)
    (m : PlayFabRequestManager) (hpc : m.pc = WorkerPc.loopHead) :
    ThreadFunction env settings m =
      if m.m_runThread then { m with pc := WorkerPc.swap } else { m with pc := WorkerPc.exited } := by
  unfold ThreadFunction
  rw [hpc]

theorem ThreadFunction_swap (env : Collaborators) (settings : PlayFabSettings)
    (m : PlayFabRequestManager) (hpc : m.pc = WorkerPc.swap) :
    ThreadFunction env settings m =
      { m with
        requestsToHandle := m.m_requestsToHandle
        m_requestsToHandle := m.requestsToHandle
        m_pendingCalls :=
          Int.ofNat m.m_requestsToHandle.length + Int.ofNat m.resultsToHandle.length
        pc := WorkerPc.send } := by
  unfold ThreadFunction
  rw [hpc]

theorem ThreadFunction_send_nil (env : Collaborators) (settings : PlayFabSettings)
    (m : PlayFabRequestManager) (hpc : m.pc = WorkerPc.send) (hq : m.requestsToHandle = []) :
    ThreadFunction env settings m = { m with pc := WorkerPc.respond } := by
  unfold ThreadFunction
  rw [hpc]
  simp only [hq]

theorem ThreadFunction_send_null (env : Collaborators) (settings : PlayFabSettings)
    (m : PlayFabRequestManager) (request : RequestPtr) (rest : List RequestPtr)
    (hpc : m.pc = WorkerPc.send) (hq : m.requestsToHandle = request :: rest)
    (hh : HandleRequest env settings request m.heap = none) :
    ThreadFunction env settings m = { m with pc := WorkerPc.crashed } := by
  unfold ThreadFunction
  rw [hpc]
  simp only [hq, hh]

theorem ThreadFunction_send_cons (env : Collaborators) (settings : PlayFabSettings)
    (m : PlayFabRequestManager) (request : RequestPtr) (rest : List RequestPtr) (heap : Heap)
    (hpc : m.pc = WorkerPc.send) (hq : m.requestsToHandle = request :: rest)
    (hh : HandleRequest env settings request m.heap = some heap) :
    ThreadFunction env settings m =
      { m with
        heap := heap
        trace := m.trace ++ [Event.HandleRequest request]
        resultsToHandle := m.resultsToHandle ++ [request]
        requestsToHandle := rest } := by
  unfold ThreadFunction
  rw [hpc]
  simp only [hq, hh]

theorem ThreadFunction_respond_nil (env : Collaborators) (settings : PlayFabSettings)
    (m : PlayFabRequestManager) (hpc : m.pc = WorkerPc.respond) (hq : m.resultsToHandle = []) :
    ThreadFunction env settings m = { m with pc := WorkerPc.loopHead } := by
  unfold ThreadFunction
  rw [hpc]
  simp only [hq]

theorem ThreadFunction_respond_cons (env : Collaborators) (settings : PlayFabSettings)
    (m : PlayFabRequestManager) (request : RequestPtr) (rest : List RequestPtr)
    (hpc : m.pc = WorkerPc.respond) (hq : m.resultsToHandle = request :: rest) :
    ThreadFunction env settings m =
      { m with
        heap := (HandleResponse env request m.heap).1
        trace := m.trace ++ [Event.HandleResponse request] ++ (HandleResponse env request m.heap).2
        resultsToHandle := rest
        pc := WorkerPc.loopHead } := by
  unfold ThreadFunction
  rw [hpc]
  simp only [hq]

theorem ThreadFunction_exited (env : Collaborators) (settings : PlayFabSettings)
    (m : PlayFabRequestManager) (hpc : m.pc = WorkerPc.exited) :
    ThreadFunction env settings m = m := by
  unfold ThreadFunction
  rw [hpc]

theorem ThreadFunction_crashed (env : Collaborators) (settings : PlayFabSettings)
    (m : PlayFabRequestManager) (hpc : m.pc = WorkerPc.crashed) :
    ThreadFunction env settings m = m := by
  unfold ThreadFunction
  rw [hpc]

theorem respond_events (m : PlayFabRequestManager) (request : RequestPtr) (ev : List Event)
    (hev : ev = [] ∨ ev = [Event.mInternalCallback request]) :
    sent (m.trace ++ [Event.HandleResponse request] ++ ev) = sent m.trace ∧
    submitted (m.trace ++ [Event.HandleResponse request] ++ ev) = submitted m.trace ∧
    processed (m.trace ++ [Event.HandleResponse request] ++ ev) =
      processed m.trace ++ [request] := by
  rcases hev with rfl | rfl
  · exact ⟨by simp [sent], by simp [submitted], by simp [processed]⟩
  · exact ⟨by simp [sent], by simp [submitted], by simp [processed]⟩

theorem queuesInOrder_ThreadFunction (env : Collaborators) (settings : PlayFabSettings)
    (m : PlayFabRequestManager) (h : QueuesInOrder m) :
    QueuesInOrder (ThreadFunction env settings m) := by
  obtain ⟨h1, h2, h3, h4⟩ := h
  cases hpc : m.pc with
  | loopHead =>
    have he := h3 (by simp [hpc]) (by simp [hpc])
    rw [ThreadFunction_loopHead env settings m hpc]
    by_cases hr : m.m_runThread = true
    · rw [if_pos hr]
      exact ⟨h1, h2, fun _ _ => he, h4⟩
    · rw [if_neg hr]
      exact ⟨h1, h2, fun _ _ => he, h4⟩
  | swap =>
    have he := h3 (by simp [hpc]) (by simp [hpc])
    rw [ThreadFunction_swap env settings m hpc]
    refine ⟨?_, h2, fun hn => absurd rfl hn, h4⟩
    show submitted m.trace = sent m.trace ++ m.m_requestsToHandle ++ m.requestsToHandle
    rw [h1, he]
    simp
  | send =>
    cases hq : m.requestsToHandle with
    | nil =>
      rw [ThreadFunction_send_nil env settings m hpc hq]
      exact ⟨h1, h2, fun _ _ => hq, h4⟩
    | cons request rest =>
      cases hh : HandleRequest env settings request m.heap with
      | none =>
        rw [ThreadFunction_send_null env settings m request rest hpc hq hh]
        exact ⟨h1, h2, fun _ hn => absurd rfl hn, h4⟩
      | some heap =>
        rw [ThreadFunction_send_cons env settings m request rest heap hpc hq hh]
        refine ⟨?_, ?_, fun hn => absurd hpc hn, ?_⟩
        · show submitted (m.trace ++ [Event.HandleRequest request]) =
            sent (m.trace ++ [Event.HandleRequest request]) ++ rest ++ m.m_requestsToHandle
          rw [submitted_append, sent_append, h1, hq]
          simp [submitted, sent]
        · show sent (m.trace ++ [Event.HandleRequest request]) =
            processed (m.trace ++ [Event.HandleRequest request]) ++
              (m.resultsToHandle ++ [request])
          rw [sent_append, processed_append, h2]
          simp [processed, sent]
        · show (delivered (m.trace ++ [Event.HandleRequest request])).Sublist
            (processed (m.trace ++ [Event.HandleRequest request]))
          rw [delivered_append, processed_append]
          simpa [delivered, processed] using h4
  | respond =>
    have he := h3 (by simp [hpc]) (by simp [hpc])
    cases hq : m.resultsToHandle with
    | nil =>
      rw [ThreadFunction_respond_nil env settings m hpc hq]
      exact ⟨h1, h2, fun _ _ => he, h4⟩
    | cons request rest =>
      rw [ThreadFunction_respond_cons env settings m request rest hpc hq]
      have hev := HandleResponse_events env request m.heap
      obtain ⟨e1, e2, e3⟩ := respond_events m request _ hev
      refine ⟨?_, ?_, fun _ _ => he, ?_⟩
      · show submitted _ = sent _ ++ m.requestsToHandle ++ m.m_requestsToHandle
        rw [e1, e2]
        exact h1
      · show sent _ = processed _ ++ rest
        rw [e1, e3, h2, hq]
        simp
      · show (delivered _).Sublist (processed _)
        rw [e3]
        rcases hev with hev | hev
        · rw [hev]
          simpa [delivered] using h4.trans (List.sublist_append_left _ _)
        · rw [hev]
          simpa [delivered] using h4.append (List.Sublist.refl [request])
  | exited =>
    rw [ThreadFunction_exited env settings m hpc]
    exact ⟨h1, h2, h3, h4⟩
  | crashed =>
    rw [ThreadFunction_crashed env settings m hpc]
    exact ⟨h1, h2, h3, h4⟩

theorem queuesInOrder_step (env : Collaborators) (settings : PlayFabSettings)
    (m : PlayFabRequestManager) (a : Action) (h : QueuesInOrder m) :
    QueuesInOrder (step env settings m a) := by
  cases a with
  | worker => exact queuesInOrder_ThreadFunction env settings m h
  | Destroy =>
    obtain ⟨h1, h2, h3, h4⟩ := h
    refine ⟨?_, ?_, h3, ?_⟩
    · simpa [step, Destroy, submitted, sent] using h1
    · simpa [step, Destroy, processed, sent] using h2
    · simpa [step, Destroy, processed, delivered] using h4
  | AddRequest request =>
    obtain ⟨h1, h2, h3, h4⟩ := h
    refine ⟨?_, ?_, h3, ?_⟩
    · show submitted (m.trace ++ [Event.AddRequest request]) =
        sent (m.trace ++ [Event.AddRequest request]) ++ m.requestsToHandle ++
          (m.m_requestsToHandle ++ [request])
      rw [submitted_append, sent_append, h1]
      simp [submitted, sent]
    · show sent (m.trace ++ [Event.AddRequest request]) =
        processed (m.trace ++ [Event.AddRequest request]) ++ m.resultsToHandle
      rw [sent_append, processed_append, h2]
      simp [processed, sent]
    · show (delivered (m.trace ++ [Event.AddRequest request])).Sublist
        (processed (m.trace ++ [Event.AddRequest request]))
      rw [delivered_append, processed_append]
      simpa [delivered, processed] using h4

theorem queuesInOrder_run (env : Collaborators) (settings : PlayFabSettings)
    (actions : List Action) (m : PlayFabRequestManager) (h : QueuesInOrder m) :
    QueuesInOrder (run env settings m actions) := by
  induction actions generalizing m with
  | nil => exact h
  | cons a rest ih => exact ih _ (queuesInOrder_step env settings m a h)

/-! ## C11: first in, first out -/

/-- C11. For every interleaving of calls of `AddRequest` (and of the clearing
of the run flag) with steps of the worker loop, started from the manager as
constructed: the sequence of requests handed to `HandleRequest` is a prefix of
the sequence of requests submitted, and the sequence of requests handed to
`HandleResponse` is a prefix of the sequence sent, hence of the sequence
submitted. So no request is sent or processed before one submitted earlier,
and when no request is submitted twice none is sent or processed twice. -/
theorem run_first_in_first_out (env : Collaborators) (settings : PlayFabSettings)
    (pending : Int) (heap : Heap) (actions : List Action) :
    List.IsPrefix
      (sent (run env settings (PlayFabRequestManager.new pending heap) actions).trace)
      (submitted (run env settings (PlayFabRequestManager.new pending heap) actions).trace) ∧
    List.IsPrefix
      (processed (run env settings (PlayFabRequestManager.new pending heap) actions).trace)
      (sent (run env settings (PlayFabRequestManager.new pending heap) actions).trace) ∧
    List.IsPrefix
      (processed (run env settings (PlayFabRequestManager.new pending heap) actions).trace)
      (submitted (run env settings (PlayFabRequestManager.new pending heap) actions).trace) ∧
    ((submitted (run env settings (PlayFabRequestManager.new pending heap) actions).trace).Nodup →
      (sent (run env settings (PlayFabRequestManager.new pending heap) actions).trace).Nodup ∧
      (processed
        (run env settings (PlayFabRequestManager.new pending heap) actions).trace).Nodup) := by
  obtain ⟨h1, h2, _, _⟩ := queuesInOrder_run env settings actions _ (queuesInOrder_new pending heap)
  have p1 : List.IsPrefix
      (sent (run env settings (PlayFabRequestManager.new pending heap) actions).trace)
      (submitted (run env settings (PlayFabRequestManager.new pending heap) actions).trace) :=
    ⟨_, by rw [h1, List.append_assoc]⟩
  have p2 : List.IsPrefix
      (processed (run env settings (PlayFabRequestManager.new pending heap) actions).trace)
      (sent (run env settings (PlayFabRequestManager.new pending heap) actions).trace) :=
    ⟨_, h2.symm⟩
  exact ⟨p1, p2, p2.trans p1, fun hn =>
    ⟨hn.sublist p1.sublist, hn.sublist (p2.trans p1).sublist⟩⟩

/-! ## C14: one response for each turn of the loop -/

/-- C14. The worker removes requests from the results queue and hands them to
`HandleResponse` only at the place of lines 159-166, which it passes once in
every turn of its loop (it goes on to the head of the loop). There, when the
queue holds `k >= 1` entries, exactly the oldest entry is handed to
`HandleResponse` and removed, leaving `k - 1`; when the queue is empty no
response is processed and nothing changes but the place. At every other place
a step processes no response and removes nothing from the results queue. -/
theorem ThreadFunction_one_response (env : Collaborators) (settings : PlayFabSettings)
    (m : PlayFabRequestManager) :
    (m.pc = WorkerPc.respond →
      (∀ (request : RequestPtr) (rest : List RequestPtr),
        m.resultsToHandle = request :: rest →
        processed (ThreadFunction env settings m).trace = processed m.trace ++ [request] ∧
        (ThreadFunction env settings m).resultsToHandle = rest ∧
        (ThreadFunction env settings m).resultsToHandle.length + 1 = m.resultsToHandle.length ∧
        (ThreadFunction env settings m).pc = WorkerPc.loopHead) ∧
      (m.resultsToHandle = [] →
        (ThreadFunction env settings m).trace = m.trace ∧
        (ThreadFunction env settings m).resultsToHandle = [] ∧
        (ThreadFunction env settings m).pc = WorkerPc.loopHead)) ∧
    (m.pc ≠ WorkerPc.respond →
      processed (ThreadFunction env settings m).trace = processed m.trace ∧
      delivered (ThreadFunction env settings m).trace = delivered m.trace ∧
      List.IsPrefix m.resultsToHandle (ThreadFunction env settings m).resultsToHandle) := by
  constructor
  · intro hpc
    constructor
    · intro request rest hq
      rw [ThreadFunction_respond_cons env settings m request rest hpc hq]
      have hev := HandleResponse_events env request m.heap
      obtain ⟨_, _, e3⟩ := respond_events m request _ hev
      exact ⟨e3, rfl, by rw [hq]; rfl, rfl⟩
    · intro hq
      rw [ThreadFunction_respond_nil env settings m hpc hq]
      exact ⟨rfl, hq, rfl⟩
  · intro hpc
    cases h : m.pc with
    | respond => exact absurd h hpc
    | loopHead =>
      rw [ThreadFunction_loopHead env settings m h]
      split <;> exact ⟨rfl, rfl, List.prefix_refl _⟩
    | swap =>
      rw [ThreadFunction_swap env settings m h]
      exact ⟨rfl, rfl, List.prefix_refl _⟩
    | send =>
      cases hq : m.requestsToHandle with
      | nil =>
        rw [ThreadFunction_send_nil env settings m h hq]
        exact ⟨rfl, rfl, List.prefix_refl _⟩
      | cons request rest =>
        cases hh : HandleRequest env settings request m.heap with
        | none =>
          rw [ThreadFunction_send_null env settings m request rest h hq hh]
          exact ⟨rfl, rfl, List.prefix_refl _⟩
        | some heap =>
          rw [ThreadFunction_send_cons env settings m request rest heap h hq hh]
          refine ⟨?_, ?_, List.prefix_append _ _⟩
          · show processed (m.trace ++ [Event.HandleRequest request]) = processed m.trace
            simp [processed]
          · show delivered (m.trace ++ [Event.HandleRequest request]) = delivered m.trace
            simp [delivered]
    | exited =>
      rw [ThreadFunction_exited env settings m h]
      exact ⟨rfl, rfl, List.prefix_refl _⟩
    | crashed =>
      rw [ThreadFunction_crashed env settings m h]
      exact ⟨rfl, rfl, List.prefix_refl _⟩

/-- C14 at the manager that stands before line 159 with two requests in the
results queue: the older one is processed, the other one stays. -/
theorem ThreadFunction_one_response_witness :
    twoSentManager.pc = WorkerPc.respond ∧
    twoSentManager.resultsToHandle = [some 1, some 2] ∧
    processed (ThreadFunction answeringEnv PlayFabSettings.new twoSentManager).trace =
      processed twoSentManager.trace ++ [some 1] ∧
    (ThreadFunction answeringEnv PlayFabSettings.new twoSentManager).resultsToHandle = [some 2] ∧
    (ThreadFunction answeringEnv PlayFabSettings.new twoSentManager).resultsToHandle.length + 1 =
      twoSentManager.resultsToHandle.length ∧
    (ThreadFunction answeringEnv PlayFabSettings.new twoSentManager).pc = WorkerPc.loopHead :=
  ⟨by decide, by decide,
    ((ThreadFunction_one_response answeringEnv PlayFabSettings.new twoSentManager).1
      (by decide)).1 (some 1) [some 2] (by decide)⟩

/-! ## C15: the swap and the send loop -/

theorem step_not_worker (env : Collaborators) (settings : PlayFabSettings)
    (m : PlayFabRequestManager) (a : Action) (h : a ≠ Action.worker) :
    (step env settings m a).pc = m.pc ∧
    (step env settings m a).requestsToHandle = m.requestsToHandle ∧
    (step env settings m a).resultsToHandle = m.resultsToHandle ∧
    sent (step env settings m a).trace = sent m.trace ∧
    processed (step env settings m a).trace = processed m.trace ∧
    delivered (step env settings m a).trace = delivered m.trace ∧
    (step env settings m a).m_pendingCalls = m.m_pendingCalls := by
  cases a with
  | worker => exact absurd rfl h
  | Destroy =>
    refine ⟨rfl, rfl, rfl, ?_, ?_, ?_, rfl⟩
    · show sent (m.trace ++ [Event.Destroy]) = sent m.trace
      simp [sent]
    · show processed (m.trace ++ [Event.Destroy]) = processed m.trace
      simp [processed]
    · show delivered (m.trace ++ [Event.Destroy]) = delivered m.trace
      simp [delivered]
  | AddRequest request =>
    refine ⟨rfl, rfl, rfl, ?_, ?_, ?_, rfl⟩
    · show sent (m.trace ++ [Event.AddRequest request]) = sent m.trace
      simp [sent]
    · show processed (m.trace ++ [Event.AddRequest request]) = processed m.trace
      simp [processed]
    · show delivered (m.trace ++ [Event.AddRequest request]) = delivered m.trace
      simp [delivered]

theorem workerSteps_cons (a : Action) (rest : List Action) :
    workerSteps (a :: rest) = workerSteps rest + (if a = Action.worker then 1 else 0) := by
  unfold workerSteps
  rw [List.count_cons]
  by_cases h : a = Action.worker
  · simp [h]
  · simp [h]

theorem run_cons (env : Collaborators) (settings : PlayFabSettings) (m : PlayFabRequestManager)
    (a : Action) (rest : List Action) :
    run env settings m (a :: rest) = run env settings (step env settings m a) rest := rfl

theorem run_no_worker (env : Collaborators) (settings : PlayFabSettings)
    (actions : List Action) (m : PlayFabRequestManager) (h : workerSteps actions = 0) :
    (run env settings m actions).pc = m.pc ∧
    (run env settings m actions).requestsToHandle = m.requestsToHandle ∧
    (run env settings m actions).resultsToHandle = m.resultsToHandle := by
  induction actions generalizing m with
  | nil => exact ⟨rfl, rfl, rfl⟩
  | cons a rest ih =>
    rw [workerSteps_cons] at h
    have ha : a ≠ Action.worker := by
      intro hw
      simp [hw] at h
    have hrest : workerSteps rest = 0 := by omega
    obtain ⟨s1, s2, s3, _⟩ := step_not_worker env settings m a ha
    obtain ⟨r1, r2, r3⟩ := ih (step env settings m a) hrest
    rw [run_cons]
    exact ⟨r1.trans s1, r2.trans s2, r3.trans s3⟩

theorem run_send_phase (env : Collaborators) (settings : PlayFabSettings)
    (actions : List Action) (m : PlayFabRequestManager) (hpc : m.pc = WorkerPc.send)
    (hnull : ∀ r ∈ m.requestsToHandle, r ≠ none)
    (hsteps : workerSteps actions = m.requestsToHandle.length + 1) :
    (run env settings m actions).pc = WorkerPc.respond ∧
    (run env settings m actions).requestsToHandle = [] ∧
    (run env settings m actions).resultsToHandle = m.resultsToHandle ++ m.requestsToHandle := by
  induction actions generalizing m with
  | nil => simp [workerSteps] at hsteps
  | cons a rest ih =>
    rw [run_cons]
    by_cases ha : a = Action.worker
    · subst ha
      rw [workerSteps_cons, if_pos rfl] at hsteps
      have hrest : workerSteps rest = m.requestsToHandle.length := by omega
      have hstep : step env settings m Action.worker = ThreadFunction env settings m := rfl
      rw [hstep]
      cases hq : m.requestsToHandle with
      | nil =>
        rw [hq] at hrest
        have e := ThreadFunction_send_nil env settings m hpc hq
        have e1 : (ThreadFunction env settings m).pc = WorkerPc.respond := by rw [e]
        have e2 : (ThreadFunction env settings m).requestsToHandle = [] := by rw [e]; exact hq
        have e3 : (ThreadFunction env settings m).resultsToHandle = m.resultsToHandle := by
          rw [e]
        obtain ⟨r1, r2, r3⟩ := run_no_worker env settings rest
          (ThreadFunction env settings m) hrest
        exact ⟨r1.trans e1, r2.trans e2, by rw [r3, e3]; simp⟩
      | cons request tail =>
        have hne : request ≠ none := hnull request (by rw [hq]; exact List.mem_cons_self _ _)
        obtain ⟨a, rfl⟩ := Option.ne_none_iff_exists'.mp hne
        have e := ThreadFunction_send_cons env settings m (some a) tail _ hpc hq rfl
        have e1 : (ThreadFunction env settings m).pc = WorkerPc.send := by rw [e]; exact hpc
        have e2 : (ThreadFunction env settings m).requestsToHandle = tail := by rw [e]
        have e3 : (ThreadFunction env settings m).resultsToHandle =
            m.resultsToHandle ++ [some a] := by rw [e]
        rw [hq] at hrest
        obtain ⟨r1, r2, r3⟩ := ih (ThreadFunction env settings m) e1
          (by
            intro r hr
            rw [e2] at hr
            exact hnull r (by rw [hq]; exact List.mem_cons_of_mem _ hr))
          (by rw [e2]; simpa using hrest)
        exact ⟨r1, r2, by rw [r3, e2, e3]; simp⟩
    · rw [workerSteps_cons, if_neg ha] at hsteps
      obtain ⟨s1, s2, s3, _⟩ := step_not_worker env settings m a ha
      obtain ⟨r1, r2, r3⟩ := ih (step env settings m a) (s1.trans hpc)
        (by rw [s2]; exact hnull) (by rw [s2]; simpa using hsteps)
      exact ⟨r1, r2, by rw [r3, s2, s3]⟩

/-- C15. In every run of the manager as constructed:
(1) whenever the worker stands at the head of its loop or before the swap, its
local to-send queue is empty;
(2) the swap of lines 143-147 then leaves the shared queue empty, puts into
the to-send queue what the shared queue held, which is exactly the submitted
requests not yet sent, in submission order, and sets the counter to the length
of the to-send queue plus the length of the results queue;
(3) from the send loop, however calls of `AddRequest` are interleaved, once the
worker has taken one step for each request of the to-send queue (none of them
a null pointer) and one more, the to-send queue is empty and the results
queue is its previous content followed by those requests in the same order. -/
theorem run_swap_and_send (env : Collaborators) (settings : PlayFabSettings)
    (pending : Int) (heap : Heap) (actions : List Action) :
    ((run env settings (PlayFabRequestManager.new pending heap) actions).pc = WorkerPc.loopHead ∨
        (run env settings (PlayFabRequestManager.new pending heap) actions).pc = WorkerPc.swap →
      (run env settings (PlayFabRequestManager.new pending heap) actions).requestsToHandle = []) ∧
    ((run env settings (PlayFabRequestManager.new pending heap) actions).pc = WorkerPc.swap →
      ∀ m', m' = ThreadFunction env settings
          (run env settings (PlayFabRequestManager.new pending heap) actions) →
        m'.m_requestsToHandle = [] ∧
        m'.requestsToHandle =
          (run env settings (PlayFabRequestManager.new pending heap) actions).m_requestsToHandle ∧
        sent m'.trace ++ m'.requestsToHandle = submitted m'.trace ∧
        m'.m_pendingCalls =
          Int.ofNat m'.requestsToHandle.length + Int.ofNat m'.resultsToHandle.length ∧
        m'.pc = WorkerPc.send) ∧
    (∀ (m : PlayFabRequestManager) (more : List Action),
      m.pc = WorkerPc.send → (∀ r ∈ m.requestsToHandle, r ≠ none) →
      workerSteps more = m.requestsToHandle.length + 1 →
      (run env settings m more).pc = WorkerPc.respond ∧
      (run env settings m more).requestsToHandle = [] ∧
      (run env settings m more).resultsToHandle = m.resultsToHandle ++ m.requestsToHandle) := by
  obtain ⟨h1, h2, h3, _⟩ :=
    queuesInOrder_run env settings actions _ (queuesInOrder_new pending heap)
  refine ⟨?_, ?_, ?_⟩
  · intro hpc
    rcases hpc with hpc | hpc
    · exact h3 (by rw [hpc]; decide) (by rw [hpc]; decide)
    · exact h3 (by rw [hpc]; decide) (by rw [hpc]; decide)
  · intro hpc m' hm'
    have he := h3 (by rw [hpc]; decide) (by rw [hpc]; decide)
    rw [ThreadFunction_swap env settings _ hpc] at hm'
    subst hm'
    refine ⟨he, rfl, ?_, rfl, rfl⟩
    show sent _ ++ _ = submitted _
    rw [h1, he]
    simp
  · intro m more hpc hnull hsteps
    exact run_send_phase env settings more m hpc hnull hsteps

/-- C15 at the manager that stands before the swap while two requests wait in
the shared queue. -/
theorem run_swap_and_send_witness :
    beforeSwapManager.pc = WorkerPc.swap ∧
    beforeSwapManager.requestsToHandle = [] ∧
    (ThreadFunction answeringEnv PlayFabSettings.new beforeSwapManager).m_requestsToHandle = [] ∧
    (ThreadFunction answeringEnv PlayFabSettings.new beforeSwapManager).requestsToHandle =
      [some 1, some 2] ∧
    (ThreadFunction answeringEnv PlayFabSettings.new beforeSwapManager).m_pendingCalls = 2 ∧
    (run answeringEnv PlayFabSettings.new
        (ThreadFunction answeringEnv PlayFabSettings.new beforeSwapManager)
        [Action.worker, Action.AddRequest (some 3), Action.worker, Action.worker]).resultsToHandle =
      [some 1, some 2] :=
  ⟨by decide,
    (run_swap_and_send answeringEnv PlayFabSettings.new 0 exampleHeap
      [Action.AddRequest (some 1), Action.worker, Action.AddRequest (some 2)]).1
      (Or.inr (by decide)),
    by decide, by decide, by decide,
    ((run_swap_and_send answeringEnv PlayFabSettings.new 0 exampleHeap []).2.2
      (ThreadFunction answeringEnv PlayFabSettings.new beforeSwapManager)
      [Action.worker, Action.AddRequest (some 3), Action.worker, Action.worker]
      (by decide) (by decide) (by decide)).2.2⟩

/-! ## C12, C13: the counter of pending calls -/

/-- C12 fails on the code. The worker swaps while the queues are empty, which
sets the counter to 0; two requests are submitted after that and none of them
has completed, yet `GetPendingCalls` returns 0: `AddRequest` does not count,
only the swap of the worker does. -/
theorem GetPendingCalls_after_AddRequest :
    GetPendingCalls
        (run answeringEnv PlayFabSettings.new (PlayFabRequestManager.new 0 exampleHeap)
          submitAfterSwap) = 0 ∧
    submitted
        (run answeringEnv PlayFabSettings.new (PlayFabRequestManager.new 0 exampleHeap)
          submitAfterSwap).trace = [some 1, some 2] ∧
    processed
        (run answeringEnv PlayFabSettings.new (PlayFabRequestManager.new 0 exampleHeap)
          submitAfterSwap).trace = [] := by
  decide

/-- C13 fails on the code. After an idle turn of the worker loop a request is
submitted: it sits in the shared queue, no callback was called for it, and
`GetPendingCalls` returns 0 until the next swap. -/
theorem GetPendingCalls_zero_while_queued :
    GetPendingCalls
        (run answeringEnv PlayFabSettings.new (PlayFabRequestManager.new 7 exampleHeap)
          submitAfterIdleTurn) = 0 ∧
    (run answeringEnv PlayFabSettings.new (PlayFabRequestManager.new 7 exampleHeap)
        submitAfterIdleTurn).m_requestsToHandle = [some 1] ∧
    delivered
        (run answeringEnv PlayFabSettings.new (PlayFabRequestManager.new 7 exampleHeap)
          submitAfterIdleTurn).trace = [] := by
  decide

/-- What the counter does cover: in every run, while the worker holds a request
in its to-send or results queue, the counter is at least the number of
requests in these two queues; so it is never 0 then. -/
theorem run_counter_covers_worker_queues (env : Collaborators) (settings : PlayFabSettings)
    (pending : Int) (heap : Heap) (actions : List Action) :
    (run env settings (PlayFabRequestManager.new pending heap) actions).resultsToHandle ≠ [] ∨
        (run env settings (PlayFabRequestManager.new pending heap) actions).requestsToHandle ≠ [] →
      Int.ofNat
          ((run env settings (PlayFabRequestManager.new pending heap) actions).resultsToHandle.length +
            (run env settings
              (PlayFabRequestManager.new pending heap) actions).requestsToHandle.length) ≤
        GetPendingCalls (run env settings (PlayFabRequestManager.new pending heap) actions) := by
  have key : ∀ (acts : List Action) (m : PlayFabRequestManager),
      (m.resultsToHandle ≠ [] ∨ m.requestsToHandle ≠ [] →
        Int.ofNat (m.resultsToHandle.length + m.requestsToHandle.length) ≤ m.m_pendingCalls) →
      ((run env settings m acts).resultsToHandle ≠ [] ∨
          (run env settings m acts).requestsToHandle ≠ [] →
        Int.ofNat ((run env settings m acts).resultsToHandle.length +
            (run env settings m acts).requestsToHandle.length) ≤
          (run env settings m acts).m_pendingCalls) := by
    intro acts
    induction acts with
    | nil => exact fun m h => h
    | cons a rest ih =>
      intro m hm
      rw [run_cons]
      apply ih
      by_cases ha : a = Action.worker
      · subst ha
        have hstep : step env settings m Action.worker = ThreadFunction env settings m := rfl
        rw [hstep]
        cases hpc : m.pc with
        | loopHead =>
          rw [ThreadFunction_loopHead env settings m hpc]
          split <;> exact hm
        | swap =>
          rw [ThreadFunction_swap env settings m hpc]
          intro _
          show Int.ofNat (m.resultsToHandle.length + m.m_requestsToHandle.length) ≤
            Int.ofNat m.m_requestsToHandle.length + Int.ofNat m.resultsToHandle.length
          simp only [Int.ofNat_eq_coe, Nat.cast_add]
          omega
        | send =>
          cases hq : m.requestsToHandle with
          | nil =>
            rw [ThreadFunction_send_nil env settings m hpc hq]
            exact hm
          | cons request tail =>
            have hm' := hm (Or.inr (by rw [hq]; simp))
            rw [hq] at hm'
            cases hh : HandleRequest env settings request m.heap with
            | none =>
              rw [ThreadFunction_send_null env settings m request tail hpc hq hh]
              intro _
              show Int.ofNat (m.resultsToHandle.length + m.requestsToHandle.length) ≤ _
              rw [hq]
              exact hm'
            | some heap' =>
              rw [ThreadFunction_send_cons env settings m request tail heap' hpc hq hh]
              intro _
              show Int.ofNat ((m.resultsToHandle ++ [request]).length + tail.length) ≤
                m.m_pendingCalls
              simp only [Int.ofNat_eq_coe, Nat.cast_add, List.length_append, List.length_cons,
                List.length_nil] at hm' ⊢
              omega
        | respond =>
          cases hq : m.resultsToHandle with
          | nil =>
            rw [ThreadFunction_respond_nil env settings m hpc hq]
            exact hm
          | cons request tail =>
            have hm' := hm (Or.inl (by rw [hq]; simp))
            rw [hq] at hm'
            rw [ThreadFunction_respond_cons env settings m request tail hpc hq]
            intro _
            show Int.ofNat (tail.length + m.requestsToHandle.length) ≤ m.m_pendingCalls
            simp only [Int.ofNat_eq_coe, Nat.cast_add, List.length_cons] at hm' ⊢
            omega
        | exited =>
          rw [ThreadFunction_exited env settings m hpc]
          exact hm
        | crashed =>
          rw [ThreadFunction_crashed env settings m hpc]
          exact hm
      · obtain ⟨_, s2, s3, _, _, _, s7⟩ := step_not_worker env settings m a ha
        rw [s2, s3, s7]
        exact hm
  exact key actions _ (fun h => by
    rcases h with h | h <;> exact absurd rfl h)

/-! ## C16: after the run flag was cleared -/

/-- C16 as stated fails. The run flag is cleared while the worker is past the
test of line 141; a request submitted after that is swapped in, sent and
processed, and its completion callback is called. -/
theorem run_after_Destroy_counterexample :
    (run answeringEnv PlayFabSettings.new (PlayFabRequestManager.new 0 exampleHeap)
        lateSubmission).trace =
      [Event.Destroy, Event.AddRequest (some 1), Event.HandleRequest (some 1),
       Event.HandleResponse (some 1), Event.mInternalCallback (some 1)] := by
  decide

theorem run_flag_stays_cleared (env : Collaborators) (settings : PlayFabSettings)
    (actions : List Action) (m : PlayFabRequestManager) (h : m.m_runThread = false) :
    (run env settings m actions).m_runThread = false := by
  induction actions generalizing m with
  | nil => exact h
  | cons a rest ih =>
    rw [run_cons]
    apply ih
    cases a with
    | AddRequest request => exact h
    | Destroy => rfl
    | worker =>
      show (ThreadFunction env settings m).m_runThread = false
      cases hpc : m.pc with
      | loopHead =>
        rw [ThreadFunction_loopHead env settings m hpc, h]
        rfl
      | swap =>
        rw [ThreadFunction_swap env settings m hpc]
        exact h
      | send =>
        cases hq : m.requestsToHandle with
        | nil =>
          rw [ThreadFunction_send_nil env settings m hpc hq]
          exact h
        | cons request tail =>
          cases hh : HandleRequest env settings request m.heap with
          | none =>
            rw [ThreadFunction_send_null env settings m request tail hpc hq hh]
            exact h
          | some heap =>
            rw [ThreadFunction_send_cons env settings m request tail heap hpc hq hh]
            exact h
      | respond =>
        cases hq : m.resultsToHandle with
        | nil =>
          rw [ThreadFunction_respond_nil env settings m hpc hq]
          exact h
        | cons request tail =>
          rw [ThreadFunction_respond_cons env settings m request tail hpc hq]
          exact h
      | exited =>
        rw [ThreadFunction_exited env settings m hpc]
        exact h
      | crashed =>
        rw [ThreadFunction_crashed env settings m hpc]
        exact h

theorem ThreadFunction_stopped (env : Collaborators) (settings : PlayFabSettings)
    (m : PlayFabRequestManager) (h : m.m_runThread = false) :
    (processed (ThreadFunction env settings m).trace).length +
        turnLeft (ThreadFunction env settings m).pc ≤
      (processed m.trace).length + turnLeft m.pc ∧
    (delivered (ThreadFunction env settings m).trace).length +
        turnLeft (ThreadFunction env settings m).pc ≤
      (delivered m.trace).length + turnLeft m.pc ∧
    (turnLeft m.pc = 0 →
      turnLeft (ThreadFunction env settings m).pc = 0 ∧
      sent (ThreadFunction env settings m).trace = sent m.trace ∧
      processed (ThreadFunction env settings m).trace = processed m.trace ∧
      delivered (ThreadFunction env settings m).trace = delivered m.trace) := by
  cases hpc : m.pc with
  | loopHead =>
    rw [ThreadFunction_loopHead env settings m hpc, h]
    exact ⟨Nat.le_refl _, Nat.le_refl _, fun _ => ⟨rfl, rfl, rfl, rfl⟩⟩
  | swap =>
    rw [ThreadFunction_swap env settings m hpc]
    exact ⟨Nat.le_refl _, Nat.le_refl _, fun h0 => absurd h0 (by decide)⟩
  | send =>
    cases hq : m.requestsToHandle with
    | nil =>
      rw [ThreadFunction_send_nil env settings m hpc hq]
      exact ⟨Nat.le_refl _, Nat.le_refl _, fun h0 => absurd h0 (by decide)⟩
    | cons request tail =>
      cases hh : HandleRequest env settings request m.heap with
      | none =>
        rw [ThreadFunction_send_null env settings m request tail hpc hq hh]
        exact ⟨Nat.le_succ _, Nat.le_succ _, fun h0 => absurd h0 (by decide)⟩
      | some heap =>
        rw [ThreadFunction_send_cons env settings m request tail heap hpc hq hh]
        refine ⟨?_, ?_, fun h0 => absurd h0 (by decide)⟩
        · show (processed (m.trace ++ [Event.HandleRequest request])).length + turnLeft m.pc ≤ _
          rw [hpc]
          simp [processed]
        · show (delivered (m.trace ++ [Event.HandleRequest request])).length + turnLeft m.pc ≤ _
          rw [hpc]
          simp [delivered]
  | respond =>
    cases hq : m.resultsToHandle with
    | nil =>
      rw [ThreadFunction_respond_nil env settings m hpc hq]
      exact ⟨Nat.le_succ _, Nat.le_succ _, fun h0 => absurd h0 (by decide)⟩
    | cons request tail =>
      rw [ThreadFunction_respond_cons env settings m request tail hpc hq]
      have hev := HandleResponse_events env request m.heap
      obtain ⟨_, _, e3⟩ := respond_events m request _ hev
      refine ⟨?_, ?_, fun h0 => absurd h0 (by decide)⟩
      · show (processed _).length + turnLeft WorkerPc.loopHead ≤ _
        rw [e3]
        simp [turnLeft]
      · show (delivered _).length + turnLeft WorkerPc.loopHead ≤ _
        rcases hev with hev | hev
        · rw [hev]
          simp [delivered, turnLeft]
        · rw [hev]
          simp [delivered, turnLeft]
  | exited =>
    rw [ThreadFunction_exited env settings m hpc, hpc]
    exact ⟨Nat.le_refl _, Nat.le_refl _, fun _ => ⟨rfl, rfl, rfl, rfl⟩⟩
  | crashed =>
    rw [ThreadFunction_crashed env settings m hpc, hpc]
    exact ⟨Nat.le_refl _, Nat.le_refl _, fun _ => ⟨rfl, rfl, rfl, rfl⟩⟩

theorem step_stopped (env : Collaborators) (settings : PlayFabSettings)
    (m : PlayFabRequestManager) (a : Action) (h : m.m_runThread = false) :
    (processed (step env settings m a).trace).length + turnLeft (step env settings m a).pc ≤
      (processed m.trace).length + turnLeft m.pc ∧
    (delivered (step env settings m a).trace).length + turnLeft (step env settings m a).pc ≤
      (delivered m.trace).length + turnLeft m.pc ∧
    (turnLeft m.pc = 0 →
      turnLeft (step env settings m a).pc = 0 ∧
      sent (step env settings m a).trace = sent m.trace ∧
      processed (step env settings m a).trace = processed m.trace ∧
      delivered (step env settings m a).trace = delivered m.trace) := by
  by_cases ha : a = Action.worker
  · subst ha
    exact ThreadFunction_stopped env settings m h
  · obtain ⟨s1, _, _, s4, s5, s6, _⟩ := step_not_worker env settings m a ha
    rw [s1, s5, s6]
    exact ⟨Nat.le_refl _, Nat.le_refl _, fun h0 => ⟨h0, s4, rfl, rfl⟩⟩

theorem run_stopped (env : Collaborators) (settings : PlayFabSettings)
    (actions : List Action) (m : PlayFabRequestManager) (h : m.m_runThread = false) :
    (processed (run env settings m actions).trace).length +
        turnLeft (run env settings m actions).pc ≤
      (processed m.trace).length + turnLeft m.pc ∧
    (delivered (run env settings m actions).trace).length +
        turnLeft (run env settings m actions).pc ≤
      (delivered m.trace).length + turnLeft m.pc ∧
    (turnLeft m.pc = 0 →
      sent (run env settings m actions).trace = sent m.trace ∧
      processed (run env settings m actions).trace = processed m.trace ∧
      delivered (run env settings m actions).trace = delivered m.trace) := by
  induction actions generalizing m with
  | nil => exact ⟨Nat.le_refl _, Nat.le_refl _, fun _ => ⟨rfl, rfl, rfl⟩⟩
  | cons a rest ih =>
    rw [run_cons]
    have hflag : (step env settings m a).m_runThread = false :=
      run_flag_stays_cleared env settings [a] m h
    obtain ⟨s1, s2, s3⟩ := step_stopped env settings m a h
    obtain ⟨r1, r2, r3⟩ := ih (step env settings m a) hflag
    refine ⟨Nat.le_trans r1 s1, Nat.le_trans r2 s2, ?_⟩
    intro h0
    obtain ⟨t0, t1, t2, t3⟩ := s3 h0
    obtain ⟨u1, u2, u3⟩ := r3 t0
    exact ⟨u1.trans t1, u2.trans t2, u3.trans t3⟩

/-- C16, amended. Once the run flag has been cleared it stays cleared, and for
every interleaving of calls of `AddRequest` and steps of the worker that
follows: the worker processes at most one more response and at most one more
completion callback is called (the turn of the loop in progress is finished,
with whatever its swap takes over); and once the worker stands at the head of
its loop or has left the loop, no further request is sent, no further response
is processed and no further callback is called, whatever is queued or
submitted. -/
theorem run_after_Destroy (env : Collaborators) (settings : PlayFabSettings)
    (m : PlayFabRequestManager) (actions : List Action) (h : m.m_runThread = false) :
    (run env settings m actions).m_runThread = false ∧
    (processed (run env settings m actions).trace).length ≤ (processed m.trace).length + 1 ∧
    (delivered (run env settings m actions).trace).length ≤ (delivered m.trace).length + 1 ∧
    (m.pc = WorkerPc.loopHead ∨ m.pc = WorkerPc.exited →
      sent (run env settings m actions).trace = sent m.trace ∧
      processed (run env settings m actions).trace = processed m.trace ∧
      delivered (run env settings m actions).trace = delivered m.trace) := by
  obtain ⟨r1, r2, r3⟩ := run_stopped env settings actions m h
  have hle : turnLeft m.pc ≤ 1 := by cases m.pc <;> decide
  refine ⟨run_flag_stays_cleared env settings actions m h, by omega, by omega, ?_⟩
  intro hpc
  apply r3
  rcases hpc with hpc | hpc <;> rw [hpc] <;> rfl

/-- C16, amended, at the manager whose flag was cleared while the worker stood
at the head of its loop: a request submitted afterwards is never sent. -/
theorem run_after_Destroy_witness :
    (Destroy (PlayFabRequestManager.new 0 exampleHeap)).m_runThread = false ∧
    (run answeringEnv PlayFabSettings.new (Destroy (PlayFabRequestManager.new 0 exampleHeap))
        oneRequestTurn).m_runThread = false ∧
    (processed (run answeringEnv PlayFabSettings.new
        (Destroy (PlayFabRequestManager.new 0 exampleHeap)) oneRequestTurn).trace).length ≤
      (processed (Destroy (PlayFabRequestManager.new 0 exampleHeap)).trace).length + 1 ∧
    (delivered (run answeringEnv PlayFabSettings.new
        (Destroy (PlayFabRequestManager.new 0 exampleHeap)) oneRequestTurn).trace).length ≤
      (delivered (Destroy (PlayFabRequestManager.new 0 exampleHeap)).trace).length + 1 ∧
    ((Destroy (PlayFabRequestManager.new 0 exampleHeap)).pc = WorkerPc.loopHead ∨
        (Destroy (PlayFabRequestManager.new 0 exampleHeap)).pc = WorkerPc.exited →
      sent (run answeringEnv PlayFabSettings.new
          (Destroy (PlayFabRequestManager.new 0 exampleHeap)) oneRequestTurn).trace =
        sent (Destroy (PlayFabRequestManager.new 0 exampleHeap)).trace ∧
      processed (run answeringEnv PlayFabSettings.new
          (Destroy (PlayFabRequestManager.new 0 exampleHeap)) oneRequestTurn).trace =
        processed (Destroy (PlayFabRequestManager.new 0 exampleHeap)).trace ∧
      delivered (run answeringEnv PlayFabSettings.new
          (Destroy (PlayFabRequestManager.new 0 exampleHeap)) oneRequestTurn).trace =
        delivered (Destroy (PlayFabRequestManager.new 0 exampleHeap)).trace) :=
  ⟨rfl, run_after_Destroy answeringEnv PlayFabSettings.new
    (Destroy (PlayFabRequestManager.new 0 exampleHeap)) oneRequestTurn rfl⟩

/-! ## C17: the completion callback -/

theorem HandleResponse_with_response (env : Collaborators) (a : Nat) (heap : Heap)
    (response : HttpResponse) (h : (heap a).httpResponse = some response) :
    (HandleResponse env (some a) heap).2 = [Event.mInternalCallback (some a)] := by
  simp [HandleResponse, h]

/-- C17 fails on the code. The transport hands back no response object for the
request; the worker hands the request to `HandleResponse` and drops it from
the results queue, and no completion callback is called: line 194 returns
before line 215. -/
theorem HandleResponse_without_response :
    (run silentEnv PlayFabSettings.new (PlayFabRequestManager.new 0 exampleHeap)
        oneRequestTurn).trace =
      [Event.AddRequest (some 1), Event.HandleRequest (some 1), Event.HandleResponse (some 1)] ∧
    (run silentEnv PlayFabSettings.new (PlayFabRequestManager.new 0 exampleHeap)
        oneRequestTurn).resultsToHandle = [] ∧
    delivered
        (run silentEnv PlayFabSettings.new (PlayFabRequestManager.new 0 exampleHeap)
          oneRequestTurn).trace = [] := by
  decide

/-! ## C18: the accessors `HandleErrorReport` calls -/

/-- C18 fails on the code. Each of these non-empty bodies parses as JSON and
`HandleErrorReport` produces no record for it: `[]` and `5` (`MemberEnd()` and
`FindMember()` are called on a root that is no object), `{"code":1.5}`
(`GetInt()` on a number that is no 32-bit integer) and
`{"errorDetails":{"Email":[1]}}` (`GetString()` on a number). -/
theorem HandleErrorReport_not_total :
    HandleErrorReport exampleCodes PlayFabSettings.new
        (exampleRequest 2 (some "[]") (some ⟨kParseErrorNone, Value.array []⟩) none) = none ∧
    HandleErrorReport exampleCodes PlayFabSettings.new
        (exampleRequest 1 (some "5")
          (some ⟨kParseErrorNone, Value.number (Number.integer 5)⟩) none) = none ∧
    HandleErrorReport exampleCodes PlayFabSettings.new
        (exampleRequest 12 (some "\x7b\"code\":1.5\x7d")
          (some ⟨kParseErrorNone, Value.object fractionalCode⟩) none) = none ∧
    HandleErrorReport exampleCodes PlayFabSettings.new
        (exampleRequest 30 (some "\x7b\"errorDetails\":\x7b\"Email\":[1]\x7d\x7d")
          (some ⟨kParseErrorNone, Value.object numberInDetails⟩) none) = none := by
  decide

/-! ## C19: one test at a time -/

theorem isRunning_iff (c : PfTestContext) :
    isRunning c = true ↔
      c.activeState = PlayFabApiTestActiveState.ACTIVE ∨
        c.activeState = PlayFabApiTestActiveState.READY := by
  simp [isRunning]

theorem runningTests_cons (entry : String × PfTestContext) (rest : TestContexts) :
    runningTests (entry :: rest) = runningTests rest + (if isRunning entry.2 = true then 1 else 0) := by
  unfold runningTests
  rw [List.countP_cons]

theorem scanTests_cons (it : String × PfTestContext) (rest : TestContexts) (i : Nat) (u : Int)
    (n : Option Nat) :
    ∃ u' : Int, scanTests (it :: rest) i (u, n) =
      scanTests rest (i + 1)
        (u',
          if it.2.activeState = PlayFabApiTestActiveState.ACTIVE ∨
              it.2.activeState = PlayFabApiTestActiveState.READY then some i
          else if it.2.activeState = PlayFabApiTestActiveState.PENDING ∧ n = none then some i
          else n) :=
  ⟨_, rfl⟩

theorem scanTests_next (l : TestContexts) (i : Nat) (u : Int) (n : Option Nat) :
    ((scanTests l i (u, n)).2 = n ∧ runningTests l = 0) ∨
    ∃ (j : Nat) (entry : String × PfTestContext),
      l[j]? = some entry ∧ (scanTests l i (u, n)).2 = some (i + j) ∧
      (isRunning entry.2 = true ∨
        (entry.2.activeState = PlayFabApiTestActiveState.PENDING ∧ n = none ∧
          runningTests l = 0)) := by
  induction l generalizing i u n with
  | nil => exact Or.inl ⟨rfl, rfl⟩
  | cons it rest ih =>
    obtain ⟨u', hu⟩ := scanTests_cons it rest i u n
    rw [hu]
    by_cases hrun : it.2.activeState = PlayFabApiTestActiveState.ACTIVE ∨
        it.2.activeState = PlayFabApiTestActiveState.READY
    · have hr : isRunning it.2 = true := (isRunning_iff it.2).mpr hrun
      rw [if_pos hrun]
      rcases ih (i + 1) u' (some i) with ⟨h1, _⟩ | ⟨j, entry, hj, hres, hcase⟩
      · exact Or.inr ⟨0, it, by simp, by rw [h1]; rfl, Or.inl hr⟩
      · refine Or.inr ⟨j + 1, entry, by simpa using hj, by rw [hres]; congr 1; omega, ?_⟩
        rcases hcase with h | ⟨_, h, _⟩
        · exact Or.inl h
        · exact absurd h (by simp)
    · have hr : ¬ isRunning it.2 = true := fun h => hrun ((isRunning_iff it.2).mp h)
      have hcount : runningTests (it :: rest) = runningTests rest := by
        rw [runningTests_cons, if_neg hr]
        rfl
      rw [if_neg hrun]
      by_cases hp : it.2.activeState = PlayFabApiTestActiveState.PENDING ∧ n = none
      · rw [if_pos hp]
        rcases ih (i + 1) u' (some i) with ⟨h1, h0⟩ | ⟨j, entry, hj, hres, hcase⟩
        · exact Or.inr ⟨0, it, by simp, by rw [h1]; rfl,
            Or.inr ⟨hp.1, hp.2, by rw [hcount, h0]⟩⟩
        · refine Or.inr ⟨j + 1, entry, by simpa using hj, by rw [hres]; congr 1; omega, ?_⟩
          rcases hcase with h | ⟨_, h, _⟩
          · exact Or.inl h
          · exact absurd h (by simp)
      · rw [if_neg hp]
        rcases ih (i + 1) u' n with ⟨h1, h0⟩ | ⟨j, entry, hj, hres, hcase⟩
        · exact Or.inl ⟨h1, by rw [hcount, h0]⟩
        · refine Or.inr ⟨j + 1, entry, by simpa using hj, by rw [hres]; congr 1; omega, ?_⟩
          rcases hcase with h | ⟨h1, h2, h3⟩
          · exact Or.inl h
          · exact Or.inr ⟨h1, h2, by rw [hcount, h3]⟩

theorem runningTests_set (l : TestContexts) (j : Nat) (entry entry' : String × PfTestContext)
    (h : l[j]? = some entry) :
    runningTests (l.set j entry') + (if isRunning entry.2 = true then 1 else 0) =
      runningTests l + (if isRunning entry'.2 = true then 1 else 0) := by
  induction l generalizing j with
  | nil => simp at h
  | cons it rest ih =>
    cases j with
    | zero =>
      have hit : it = entry := by simpa using h
      subst hit
      rw [List.set_cons_zero, runningTests_cons, runningTests_cons]
      omega
    | succ k =>
      have hk : rest[k]? = some entry := by simpa using h
      rw [List.set_cons_succ, runningTests_cons, runningTests_cons]
      have := ih k hk
      omega

theorem TickTest_running (now : Int) (c : PfTestContext)
    (h : isRunning (TickTest now c) = true) : isRunning c = true := by
  unfold TickTest at h
  split at h
  · exact h
  · simp [isRunning] at h

theorem TickTestSuite_gated (playFabHttp : PlayFabRequestManager) (now : Int)
    (testContexts : TestContexts) (h : GetPendingCalls playFabHttp > 0) :
    TickTestSuite playFabHttp now testContexts = (false, testContexts) := by
  unfold TickTestSuite
  rw [if_pos h]

theorem TickTestSuite_contexts (playFabHttp : PlayFabRequestManager) (now : Int)
    (testContexts : TestContexts) (h : ¬ GetPendingCalls playFabHttp > 0) :
    (TickTestSuite playFabHttp now testContexts).2 = testContexts ∨
    ∃ (j : Nat) (entry : String × PfTestContext),
      testContexts[j]? = some entry ∧
      (isRunning entry.2 = true ∨
        (entry.2.activeState = PlayFabApiTestActiveState.PENDING ∧
          runningTests testContexts = 0)) ∧
      (TickTestSuite playFabHttp now testContexts).2 =
        testContexts.set j
          (entry.1,
            if entry.2.activeState = PlayFabApiTestActiveState.PENDING then
              StartTest now entry.2
            else TickTest now entry.2) := by
  unfold TickTestSuite
  rw [if_neg h]
  rcases scanTests_next testContexts 0 0 none with ⟨h1, _⟩ | ⟨j, entry, hj, hres, hcase⟩
  · left
    simp only [h1]
  · right
    refine ⟨j, entry, hj, ?_, ?_⟩
    · rcases hcase with hc | ⟨hc1, _, hc3⟩
      · exact Or.inl hc
      · exact Or.inr ⟨hc1, hc3⟩
    · rw [Nat.zero_add] at hres
      simp only [hres, hj]
      split <;> rfl

/-- C19. For every map of test contexts, every state of the request manager
and every reading of the clock:
(1) when `GetPendingCalls() > 0`, `TickTestSuite` returns false and changes no
context;
(2) when at most one context is `ACTIVE` or `READY` before the call, at most
one is afterwards;
(3) the call changes at most one context;
(4) a context that was `PENDING` and is no longer `PENDING` after the call
was started while no context was `ACTIVE` or `READY`. -/
theorem TickTestSuite_one_running (playFabHttp : PlayFabRequestManager) (now : Int)
    (testContexts : TestContexts) :
    (GetPendingCalls playFabHttp > 0 →
      TickTestSuite playFabHttp now testContexts = (false, testContexts)) ∧
    (runningTests testContexts ≤ 1 →
      runningTests (TickTestSuite playFabHttp now testContexts).2 ≤ 1) ∧
    ((TickTestSuite playFabHttp now testContexts).2 = testContexts ∨
      ∃ (i : Nat) (entry : String × PfTestContext) (changed : PfTestContext),
        testContexts[i]? = some entry ∧
        (TickTestSuite playFabHttp now testContexts).2 =
          testContexts.set i (entry.1, changed)) ∧
    (∀ (i : Nat) (entry entry' : String × PfTestContext),
      testContexts[i]? = some entry →
      (TickTestSuite playFabHttp now testContexts).2[i]? = some entry' →
      entry.2.activeState = PlayFabApiTestActiveState.PENDING →
      entry'.2.activeState ≠ PlayFabApiTestActiveState.PENDING →
      runningTests testContexts = 0) := by
  refine ⟨TickTestSuite_gated playFabHttp now testContexts, ?_⟩
  by_cases hp : GetPendingCalls playFabHttp > 0
  · rw [TickTestSuite_gated playFabHttp now testContexts hp]
    refine ⟨fun h => h, Or.inl rfl, ?_⟩
    intro i entry entry' h1 h2 h3 h4
    rw [h1] at h2
    cases h2
    exact absurd h3 h4
  · rcases TickTestSuite_contexts playFabHttp now testContexts hp with
      hsame | ⟨j, entry, hj, hcase, hset⟩
    · rw [hsame]
      refine ⟨fun h => h, Or.inl rfl, ?_⟩
      intro i entry entry' h1 h2 h3 h4
      rw [h1] at h2
      cases h2
      exact absurd h3 h4
    · rw [hset]
      refine ⟨?_, Or.inr ⟨j, entry, _, hj, rfl⟩, ?_⟩
      · intro hle
        have hcount := runningTests_set testContexts j entry
          (entry.1,
            if entry.2.activeState = PlayFabApiTestActiveState.PENDING then
              StartTest now entry.2
            else TickTest now entry.2) hj
        by_cases hpend : entry.2.activeState = PlayFabApiTestActiveState.PENDING
        · have hnr : ¬ isRunning entry.2 = true := by
            rw [isRunning_iff, hpend]
            decide
          have h0 : runningTests testContexts = 0 := by
            rcases hcase with hc | ⟨_, hc⟩
            · exact absurd hc hnr
            · exact hc
          rw [if_pos hpend] at hcount ⊢
          rw [if_neg hnr, h0] at hcount
          split at hcount <;> omega
        · rw [if_neg hpend] at hcount ⊢
          by_cases hrun : isRunning (TickTest now entry.2) = true
          · have hrun' := TickTest_running now entry.2 hrun
            rw [if_pos hrun', if_pos hrun] at hcount
            omega
          · rw [if_neg hrun] at hcount
            split at hcount <;> omega
      · intro i e e' h1 h2 h3 h4
        by_cases hij : j = i
        · subst hij
          rw [hj] at h1
          cases h1
          have hnr : ¬ isRunning entry.2 = true := by
            rw [isRunning_iff, h3]
            decide
          rcases hcase with hc | ⟨_, hc⟩
          · exact absurd hc hnr
          · exact hc
        · rw [List.getElem?_set_ne hij, h1] at h2
          cases h2
          exact absurd h3 h4

/-- C19 at three contexts as `InitializeTestSuite` creates them: the first
call starts the first test only; with a call outstanding nothing changes. -/
theorem TickTestSuite_one_running_witness :
    runningTests exampleTests = 0 ∧
    (TickTestSuite idleManager 5 exampleTests).2.map (fun entry => entry.2.activeState) =
      [PlayFabApiTestActiveState.ACTIVE, PlayFabApiTestActiveState.PENDING,
       PlayFabApiTestActiveState.PENDING] ∧
    runningTests (TickTestSuite idleManager 5 exampleTests).2 ≤ 1 ∧
    (GetPendingCalls (PlayFabRequestManager.new 2 exampleHeap) > 0 →
      TickTestSuite (PlayFabRequestManager.new 2 exampleHeap) 5 exampleTests =
        (false, exampleTests)) :=
  ⟨by decide, by decide,
    (TickTestSuite_one_running idleManager 5 exampleTests).2.1 (by decide),
    (TickTestSuite_one_running (PlayFabRequestManager.new 2 exampleHeap) 5 exampleTests).1⟩

end PlayFabClientSdk
